import Mathlib

/-!
Verification of the benchmark metrics-analysis engine of the Scripts
repository (disk_stress_test.py, fs_stress_test.py,
fs_stress_test_refactored.py).

The Python sources extract IOPS / latency / bandwidth from fio console
output with `re.search`, convert magnitude suffixes, aggregate repeated
trials by a geometric mean, persist rows in SQLite and compute trend
percentages.  This file gives a shallow embedding of exactly those parts:

* Python floats are modelled as `ℚ` where only field arithmetic and
  parsing of decimal literals occur (extraction, unit conversion, trend
  percentages), and as `ℝ` where transcendental functions occur
  (the geometric mean via `exp`/`log`, and the values stored in the
  database, which flow out of the geometric mean).
* Each `re.search(pattern, s)` call is modelled by a hand-specialized
  scanner for that concrete pattern, reproducing Python's leftmost-match
  rule (try every start position left to right), greediness of `[0-9.]+`
  and `([kKMG]?)` with its one-character backtracking, laziness of `.*?`,
  greediness of `.+`, the fact that `.` does not match a newline while
  `\s` does, and `re.IGNORECASE` where the source passes it.
* A Python exception (`ValueError` from `float`, caught or not) is
  modelled with `Except Unit`.
-/

/-! ## Character classes (Python `re` semantics) -/

/-- Characters matched by the regex class `[0-9.]`. -/
def isNumChar (c : Char) : Bool := c.isDigit || c = '.'

/-- Characters matched by the regex class `\s` (Python ASCII whitespace
incl. newline, which is relevant because `\s*` may cross lines while
`.` cannot). -/
def isSpaceChar (c : Char) : Bool :=
  c = ' ' || c = '\t' || c = '\n' || c = '\x0b' || c = '\x0c' || c = '\r'

/-- Characters matched by the regex class `[kKMG]` (case-sensitive, as in
the source patterns: lowercase `k` but uppercase `M`, `G`). -/
def isUnitChar (c : Char) : Bool := c = 'k' || c = 'K' || c = 'M' || c = 'G'

/-- Characters matched by `[kKMG]` under `re.IGNORECASE`. -/
def isUnitCharCI (c : Char) : Bool :=
  c.toLower = 'k' || c.toLower = 'm' || c.toLower = 'g'

/-! ## Scanning primitives -/

/-- Match a literal character sequence at the start of the input,
returning the rest. -/
def dropLit : List Char → List Char → Option (List Char)
  | [], s => some s
  | _ :: _, [] => none
  | c :: cs, x :: xs => if x = c then dropLit cs xs else none

/-- Case-insensitive variant of `dropLit` (for `re.IGNORECASE`). -/
def dropLitCI : List Char → List Char → Option (List Char)
  | [], s => some s
  | _ :: _, [] => none
  | c :: cs, x :: xs => if x.toLower = c.toLower then dropLitCI cs xs else none

/-- Greedy `\s*`. -/
def skipWs (s : List Char) : List Char := s.dropWhile isSpaceChar

/-- Greedy `([0-9.]+)`: the maximal non-empty run of `[0-9.]` characters
together with the rest of the input.  (Nothing that follows this group in
the source patterns can overlap with `[0-9.]`, so the greedy run never
needs to backtrack.) -/
def takeNum (s : List Char) : Option (List Char × List Char) :=
  let tok := s.takeWhile isNumChar
  if tok.isEmpty then none else some (tok, s.dropWhile isNumChar)

/-- Value of a digit string, most significant first. -/
def digitsToNat (cs : List Char) : Nat :=
  cs.foldl (fun n c => 10 * n + (c.toNat - 48)) 0

/-- Python's `float()` applied to a token matched by `[0-9.]+`: defined
(as an exact rational) iff the token has at least one digit and at most
one dot, `none` modelling the `ValueError` raised otherwise
(e.g. `float("1.2.3")`, `float(".")`). -/
def parseFloat (cs : List Char) : Option ℚ :=
  let intP := cs.takeWhile Char.isDigit
  let rest := cs.dropWhile Char.isDigit
  match rest with
  | [] => if intP.isEmpty then none else some (digitsToNat intP)
  | '.' :: frac =>
    if frac.all Char.isDigit then
      if intP.isEmpty && frac.isEmpty then none
      else some ((digitsToNat intP : ℚ) + (digitsToNat frac : ℚ) / 10 ^ frac.length)
    else none
  | _ => none

/-- `re.search`: try an anchored matcher at every start position from the
left, returning the first success (Python's leftmost-match rule).
Patterns in this file never match the empty string at the very end, so
the empty input yields `none`. -/
def searchL {α : Type} (t : List Char → Option α) : List Char → Option α
  | [] => none
  | c :: r =>
    match t (c :: r) with
    | some v => some v
    | none => searchL t r

/-- Lazy `.*?` followed by the matcher `t`: try `t` at the current
position first; on failure extend the gap by one character, which must
not be a newline (`.` does not match `\n`). -/
def lazyTo {α : Type} (t : List Char → Option α) : List Char → Option α
  | [] => t []
  | c :: r =>
    match t (c :: r) with
    | some v => some v
    | none => if c = '\n' then none else lazyTo t r

/-- Variant of `lazyTo` whose gap may cross newlines.  This is NOT the
behaviour of the source's `lat.*?avg` pattern; it is the reading used by
claim C10 ("the first occurrence of 'lat' that is later followed by
'avg='") and exists only to state that claim. -/
def lazyToAny {α : Type} (t : List Char → Option α) : List Char → Option α
  | [] => t []
  | c :: r =>
    match t (c :: r) with
    | some v => some v
    | none => lazyToAny t r

/-- Greedy `.+` followed by the matcher `t`: consume at least one
non-newline character, preferring the longest gap (regex greediness with
backtracking), then match `t`. -/
def greedyGap {α : Type} (t : List Char → Option α) : List Char → Option α
  | [] => none
  | c :: r =>
    if c = '\n' then none
    else
      match greedyGap t r with
      | some v => some v
      | none => t r

/-! ## The concrete patterns of the sources -/

/-- Anchored matcher for `<key>\s*=\s*([0-9.]+)([kKMG]?)` (used with
`key = iops`, `IOPS`).  Returns the two captured groups: the numeric
token and the optional suffix character. -/
def tryKV (key : List Char) (s : List Char) : Option (List Char × Option Char) :=
  match dropLit key s with
  | none => none
  | some s1 =>
    match dropLit ['='] (skipWs s1) with
    | none => none
    | some s2 =>
      match takeNum (skipWs s2) with
      | none => none
      | some (tok, s3) =>
        match s3 with
        | c :: _ => if isUnitChar c then some (tok, some c) else some (tok, none)
        | [] => some (tok, none)

/-- Case-insensitive variant of `tryKV`.  This is NOT a pattern of the
sources (their iops patterns are case-sensitive); it encodes claim C6's
words "a case-insensitive key/value token" and exists only to state that
claim. -/
def tryKVCI (key : List Char) (s : List Char) : Option (List Char × Option Char) :=
  match dropLitCI key s with
  | none => none
  | some s1 =>
    match dropLit ['='] (skipWs s1) with
    | none => none
    | some s2 =>
      match takeNum (skipWs s2) with
      | none => none
      | some (tok, s3) =>
        match s3 with
        | c :: _ => if isUnitCharCI c then some (tok, some c) else some (tok, none)
        | [] => some (tok, none)

/-- Anchored matcher for `bw\s*=\s*([0-9.]+)([kKMG]?)<tail>` with
`tail ∈ {iB/s, B/s}`.  The optional suffix group is greedy with
one-character backtracking: take the suffix character if the tail
literal follows it, otherwise retry with the empty suffix. -/
def tryBwTail (tail : List Char) (s : List Char) : Option (List Char × Option Char) :=
  match dropLit ['b', 'w'] s with
  | none => none
  | some s1 =>
    match dropLit ['='] (skipWs s1) with
    | none => none
    | some s2 =>
      match takeNum (skipWs s2) with
      | none => none
      | some (tok, s3) =>
        let withSuf : Option (List Char × Option Char) :=
          match s3 with
          | c :: r =>
            if isUnitChar c then
              match dropLit tail r with
              | some _ => some (tok, some c)
              | none => none
            else none
          | [] => none
        match withSuf with
        | some v => some v
        | none =>
          match dropLit tail s3 with
          | some _ => some (tok, none)
          | none => none

/-- Anchored matcher for the first two fallback patterns of
`disk_stress_test._extract_bandwidth`, `<keyEq>\s*([0-9.]+)([kKMG]?)<tail>`
under `re.IGNORECASE` (`keyEq` includes the `=`; note `\s*` only after
the `=` there). -/
def tryEqBwCI (keyEq tail : List Char) (s : List Char) : Option (List Char × Option Char) :=
  match dropLitCI keyEq s with
  | none => none
  | some s1 =>
    match takeNum (skipWs s1) with
    | none => none
    | some (tok, s3) =>
      let withSuf : Option (List Char × Option Char) :=
        match s3 with
        | c :: r =>
          if isUnitCharCI c then
            match dropLitCI tail r with
            | some _ => some (tok, some c)
            | none => none
          else none
        | [] => none
      match withSuf with
      | some v => some v
      | none =>
        match dropLitCI tail s3 with
        | some _ => some (tok, none)
        | none => none

/-- Anchored matcher for `bw=([0-9.]+)([kKMG]?)B/s` under `re.IGNORECASE`
(no `\s*` anywhere), the core of the per-direction fallback patterns. -/
def tryBwCoreCI (s : List Char) : Option (List Char × Option Char) :=
  match dropLitCI ['b', 'w', '='] s with
  | none => none
  | some s1 =>
    match takeNum s1 with
    | none => none
    | some (tok, s3) =>
      let withSuf : Option (List Char × Option Char) :=
        match s3 with
        | c :: r =>
          if isUnitCharCI c then
            match dropLitCI ['B', '/', 's'] r with
            | some _ => some (tok, some c)
            | none => none
          else none
        | [] => none
      match withSuf with
      | some v => some v
      | none =>
        match dropLitCI ['B', '/', 's'] s3 with
        | some _ => some (tok, none)
        | none => none

/-- Anchored matcher for `<dir>.+bw=([0-9.]+)([kKMG]?)B/s` under
`re.IGNORECASE` (`dir ∈ {READ:, WRITE:}`). -/
def tryDirBw (dir : List Char) (s : List Char) : Option (List Char × Option Char) :=
  match dropLitCI dir s with
  | none => none
  | some s1 => greedyGap tryBwCoreCI s1

/-- Anchored matcher for `avg\s*=\s*([0-9.]+)`, the tail of the latency
pattern; returns the captured numeric token. -/
def tryAvgNum (s : List Char) : Option (List Char) :=
  match dropLit ['a', 'v', 'g'] s with
  | none => none
  | some s1 =>
    match dropLit ['='] (skipWs s1) with
    | none => none
    | some s2 =>
      match takeNum (skipWs s2) with
      | none => none
      | some (tok, _) => some tok

/-- Anchored matcher for `lat.*?avg\s*=\s*([0-9.]+)`: the literal `lat`
(also matching inside `slat`/`clat`), a lazy non-newline gap, then the
`avg` tail. -/
def tryLat (s : List Char) : Option (List Char) :=
  match dropLit ['l', 'a', 't'] s with
  | none => none
  | some s1 => lazyTo tryAvgNum s1

/-! ## Unit conversion -/

/-- `matches.group(2).lower() if matches.group(2) else ''`: the unit
string handed to the converter, an empty group becoming `""`. -/
def unitOf (suf : Option Char) : String :=
  match suf with
  | some c => String.mk [c.toLower]
  | none => ""

/-- `MetricExtractor.convert_units` of fs_stress_test_refactored.py
(identical arithmetic to `_convert_units` of the other two scripts after
they lowercase the captured group): empty unit returns the value
unchanged; otherwise multiply by the dict lookup with default 1.  The
dict keys are the lowercase letters only. -/
def convert_units (val : ℚ) (unit : String) (binary : Bool) : ℚ :=
  if unit = "" then val
  else
    val *
      (if binary then
        (if unit = "k" then 1024 else if unit = "m" then 1024 ^ 2
         else if unit = "g" then 1024 ^ 3 else 1)
      else
        (if unit = "k" then 1000 else if unit = "m" then 1000 ^ 2
         else if unit = "g" then 1000 ^ 3 else 1))

/-- The inline multiplier dict of the fallback branch of
`disk_stress_test._extract_bandwidth`:
`{'k': 1024, 'm': 1048576, 'g': 1073741824}.get(unit, 1)`. -/
def binMult (unit : String) : ℚ :=
  if unit = "k" then 1024
  else if unit = "m" then 1048576
  else if unit = "g" then 1073741824
  else 1

/-- Spec-side multiplier table, written from the words of claim C7 as
amended: 1000/1e6/1e9 for lowercase k/m/g under the decimal basis,
1024/1024²/1024³ under the binary basis, and 1 for no suffix or any
other suffix string (including uppercase letters). -/
def suffix_multiplier (unit : String) (binary : Bool) : ℚ :=
  if unit = "k" then (if binary then 1024 else 1000)
  else if unit = "m" then (if binary then 1024 ^ 2 else 1000 ^ 2)
  else if unit = "g" then (if binary then 1024 ^ 3 else 1000 ^ 3)
  else 1

/-! ## Metric extractors: fs_stress_test_refactored.py (`MetricExtractor`) -/

namespace Refactored

/-- `MetricExtractor.extract_iops`: try `iops\s*=\s*([0-9.]+)([kKMG]?)`,
then `IOPS\s*=\s*([0-9.]+)([kKMG]?)`; on a match, `float` the token (a
`ValueError` escapes as `.error ()`) and convert with the decimal basis;
`None` (`.ok none`) if neither pattern matches. -/
def extract_iops (s : List Char) : Except Unit (Option ℚ) :=
  match searchL (tryKV ['i', 'o', 'p', 's']) s with
  | some (tok, suf) =>
    match parseFloat tok with
    | none => .error ()
    | some v => .ok (some (convert_units v (unitOf suf) false))
  | none =>
    match searchL (tryKV ['I', 'O', 'P', 'S']) s with
    | some (tok, suf) =>
      match parseFloat tok with
      | none => .error ()
      | some v => .ok (some (convert_units v (unitOf suf) false))
    | none => .ok none

/-- `MetricExtractor.extract_latency`: `lat.*?avg\s*=\s*([0-9.]+)`,
`float` of the captured group, no unit conversion. -/
def extract_latency (s : List Char) : Except Unit (Option ℚ) :=
  match searchL tryLat s with
  | some tok =>
    match parseFloat tok with
    | none => .error ()
    | some v => .ok (some v)
  | none => .ok none

/-- `MetricExtractor.extract_bandwidth`: try
`bw\s*=\s*([0-9.]+)([kKMG]?)iB/s`, then `bw\s*=\s*([0-9.]+)([kKMG]?)B/s`,
both converted with the binary basis and NOT divided by 1024; `None` if
neither matches. -/
def extract_bandwidth (s : List Char) : Except Unit (Option ℚ) :=
  match searchL (tryBwTail ['i', 'B', '/', 's']) s with
  | some (tok, suf) =>
    match parseFloat tok with
    | none => .error ()
    | some v => .ok (some (convert_units v (unitOf suf) true))
  | none =>
    match searchL (tryBwTail ['B', '/', 's']) s with
    | some (tok, suf) =>
      match parseFloat tok with
      | none => .error ()
      | some v => .ok (some (convert_units v (unitOf suf) true))
    | none => .ok none

/-- `MetricExtractor.extract_metrics`: the three extractors in sequence,
`x or 0` turning `None` into 0.  There is no exception handler here or in
the individual extractors, so a `ValueError` from any one of them aborts
the whole call (`.error ()`). -/
def extract_metrics (s : List Char) : Except Unit (ℚ × ℚ × ℚ) :=
  match extract_iops s with
  | .error e => .error e
  | .ok iops =>
    match extract_latency s with
    | .error e => .error e
    | .ok lat =>
      match extract_bandwidth s with
      | .error e => .error e
      | .ok bw => .ok (iops.getD 0, lat.getD 0, bw.getD 0)

end Refactored

/-! ## Metric extractors: fs_stress_test.py (`FSStressTester`) -/

namespace FS

/-- `FSStressTester._extract_iops`: same two patterns as the refactored
extractor but returning 0 (not `None`) when neither matches; a
`ValueError` from `float` escapes to the caller. -/
def extract_iops (s : List Char) : Except Unit ℚ :=
  match searchL (tryKV ['i', 'o', 'p', 's']) s with
  | some (tok, suf) =>
    match parseFloat tok with
    | none => .error ()
    | some v => .ok (convert_units v (unitOf suf) false)
  | none =>
    match searchL (tryKV ['I', 'O', 'P', 'S']) s with
    | some (tok, suf) =>
      match parseFloat tok with
      | none => .error ()
      | some v => .ok (convert_units v (unitOf suf) false)
    | none => .ok 0

/-- `FSStressTester._extract_latency`: `lat.*?avg\s*=\s*([0-9.]+)`,
returning 0 when the pattern does not match. -/
def extract_latency (s : List Char) : Except Unit ℚ :=
  match searchL tryLat s with
  | some tok =>
    match parseFloat tok with
    | none => .error ()
    | some v => .ok v
  | none => .ok 0

/-- `FSStressTester._extract_bandwidth`: the two `bw=` patterns, BOTH
converted with the binary basis (`binary=True`), no division by 1024, 0
when neither matches. -/
def extract_bandwidth (s : List Char) : Except Unit ℚ :=
  match searchL (tryBwTail ['i', 'B', '/', 's']) s with
  | some (tok, suf) =>
    match parseFloat tok with
    | none => .error ()
    | some v => .ok (convert_units v (unitOf suf) true)
  | none =>
    match searchL (tryBwTail ['B', '/', 's']) s with
    | some (tok, suf) =>
      match parseFloat tok with
      | none => .error ()
      | some v => .ok (convert_units v (unitOf suf) true)
    | none => .ok 0

/-- `FSStressTester.extract_metric`: dispatch on the metric name with a
per-call `try/except (ValueError, TypeError, AttributeError)` that turns
any extraction error into `return 0`; an unknown metric name returns
`None`.  So one metric's malformed token never affects the other two. -/
def extract_metric (s : List Char) (metric : String) : Option ℚ :=
  if metric = "iops" then
    some (match extract_iops s with | .ok v => v | .error _ => 0)
  else if metric = "lat" then
    some (match extract_latency s with | .ok v => v | .error _ => 0)
  else if metric = "bw" then
    some (match extract_bandwidth s with | .ok v => v | .error _ => 0)
  else none

end FS

/-! ## Metric extractors: disk_stress_test.py (`DiskStressTester`) -/

namespace Disk

/-- `DiskStressTester._extract_iops`: identical to the fs_stress_test
variant. -/
def extract_iops (s : List Char) : Except Unit ℚ :=
  match searchL (tryKV ['i', 'o', 'p', 's']) s with
  | some (tok, suf) =>
    match parseFloat tok with
    | none => .error ()
    | some v => .ok (convert_units v (unitOf suf) false)
  | none =>
    match searchL (tryKV ['I', 'O', 'P', 'S']) s with
    | some (tok, suf) =>
      match parseFloat tok with
      | none => .error ()
      | some v => .ok (convert_units v (unitOf suf) false)
    | none => .ok 0

/-- `DiskStressTester._extract_latency`: identical to the fs_stress_test
variant. -/
def extract_latency (s : List Char) : Except Unit ℚ :=
  match searchL tryLat s with
  | some tok =>
    match parseFloat tok with
    | none => .error ()
    | some v => .ok v
  | none => .ok 0

/-- `DiskStressTester._extract_bandwidth`:
`bw\s*=\s*([0-9.]+)([kKMG]?)iB/s` converted with the BINARY basis then
divided by 1024; else `bw\s*=\s*([0-9.]+)([kKMG]?)B/s` converted with the
DECIMAL basis (`binary=False` in the source) then divided by 1024; else
the `re.IGNORECASE` fallback list `BW=\s*..iB/s`, `bw=\s*..B/s`,
`READ:.+bw=..B/s`, `WRITE:.+bw=..B/s` in order, each with the inline
binary multiplier dict and divided by 1024; else 0. -/
def extract_bandwidth (s : List Char) : Except Unit ℚ :=
  match searchL (tryBwTail ['i', 'B', '/', 's']) s with
  | some (tok, suf) =>
    match parseFloat tok with
    | none => .error ()
    | some v => .ok (convert_units v (unitOf suf) true / 1024)
  | none =>
    match searchL (tryBwTail ['B', '/', 's']) s with
    | some (tok, suf) =>
      match parseFloat tok with
      | none => .error ()
      | some v => .ok (convert_units v (unitOf suf) false / 1024)
    | none =>
      match searchL (tryEqBwCI ['B', 'W', '='] ['i', 'B', '/', 's']) s with
      | some (tok, suf) =>
        match parseFloat tok with
        | none => .error ()
        | some v => .ok (v * binMult (unitOf suf) / 1024)
      | none =>
        match searchL (tryEqBwCI ['b', 'w', '='] ['B', '/', 's']) s with
        | some (tok, suf) =>
          match parseFloat tok with
          | none => .error ()
          | some v => .ok (v * binMult (unitOf suf) / 1024)
        | none =>
          match searchL (tryDirBw ['R', 'E', 'A', 'D', ':']) s with
          | some (tok, suf) =>
            match parseFloat tok with
            | none => .error ()
            | some v => .ok (v * binMult (unitOf suf) / 1024)
          | none =>
            match searchL (tryDirBw ['W', 'R', 'I', 'T', 'E', ':']) s with
            | some (tok, suf) =>
              match parseFloat tok with
              | none => .error ()
              | some v => .ok (v * binMult (unitOf suf) / 1024)
            | none => .ok 0

/-- `DiskStressTester.extract_metric`: dispatch with a per-call
`try/except` returning 0.0 on extraction errors, and 0.0 for an unknown
metric name. -/
def extract_metric (s : List Char) (metric : String) : ℚ :=
  if metric = "iops" then
    match extract_iops s with | .ok v => v | .error _ => 0
  else if metric = "lat" then
    match extract_latency s with | .ok v => v | .error _ => 0
  else if metric = "bw" then
    match extract_bandwidth s with | .ok v => v | .error _ => 0
  else 0

end Disk

/-! ## Claim-side pattern definitions (stated from the claims' words,
NOT from the sources; used only to exhibit where a claim diverges from
the code) -/

/-- Claim C6's reading of throughput extraction: a case-insensitive
`<key>=<number><optional-suffix>` token with key `iops`, decimal bases. -/
def iops_claim_spec (s : List Char) : Option ℚ :=
  match searchL (tryKVCI ['i', 'o', 'p', 's']) s with
  | some (tok, suf) =>
    match parseFloat tok with
    | none => none
    | some v => some (convert_units v (unitOf suf) false)
  | none => none

/-- Claim C10's reading of latency extraction: the number following the
first occurrence, in scan order, of the substring `lat` that is later
followed (anywhere, not just on the same line) by `avg=`. -/
def latency_claim_spec (s : List Char) : Option ℚ :=
  match searchL (fun u =>
    match dropLit ['l', 'a', 't'] u with
    | none => none
    | some v => lazyToAny tryAvgNum v) s with
  | some tok => parseFloat tok
  | none => none

/-! ## Trial aggregation (geometric mean) -/

/-- `TestRunner.calculate_geomean` (fs_stress_test_refactored.py; the
same code is `calculate_geomean` in fs_stress_test.py, and
disk_stress_test.py computes `statistics.geometric_mean` over the same
filtered list): keep the strictly positive values (`x > 0`; the
`x is not None` clause is vacuous here since `ℝ` has no `None`), then
`np.exp(np.mean(np.log(valid)))`, and 0.0 when nothing is kept. -/
noncomputable def calculate_geomean (values : List ℝ) : ℝ :=
  let valid := values.filter (fun x => decide (0 < x))
  if valid.isEmpty then 0
  else Real.exp ((valid.map Real.log).sum / valid.length)

/-- Spec-side geometric mean, written from the spec's glossary: "the
n-th root of the product of n values", with 0.0 for the empty list (the
documented "no data" sentinel). -/
noncomputable def geomean_spec (l : List ℝ) : ℝ :=
  if l.isEmpty then 0 else l.prod ^ ((1 : ℝ) / l.length)

/-! ## Results store (SQLite schema of all three scripts) -/

/-- One row of the `test_results` table: `(run_id, test_name, iops,
latency_ms, bandwidth_kbs)`; the three metric columns are declared
`REAL NOT NULL`, so a row can never hold NULL metrics. -/
structure Row where
  run_id : Nat
  test_name : String
  iops : ℝ
  latency_ms : ℝ
  bandwidth_kbs : ℝ

/-- The database state: the ids present in `test_runs` and the rows of
`test_results`, in insertion order. -/
structure DB where
  runs : List Nat
  results : List Row

/-- `DatabaseManager.save_test_results` (fs_stress_test_refactored.py;
`save_results`/`save_test_results` in the other scripts perform the same
INSERT): coerce `None` metrics to 0.0 and append one row.  (The
`sqlite3.Error` path, which skips the append, is not modelled: claims
about persisted data quantify over rows that were actually inserted.) -/
def save_test_results (db : DB) (run_id : Nat) (test_name : String)
    (iops latency bandwidth : Option ℝ) : DB :=
  { db with
    results := db.results ++
      [{ run_id := run_id, test_name := test_name,
         iops := iops.getD 0, latency_ms := latency.getD 0,
         bandwidth_kbs := bandwidth.getD 0 }] }

/-- The row with the maximal `run_id` in a list, modelling
`ORDER BY tr.id DESC LIMIT 1`.  On ties (two rows with the same
`run_id`) SQLite's choice is unspecified; this model keeps the earlier
row, and every theorem below only relies on the case of a unique
maximum. -/
def pickMax : List Row → Option Row
  | [] => none
  | r :: rest =>
    match pickMax rest with
    | none => some r
    | some m => if r.run_id < m.run_id then some m else some r

/-- `DatabaseManager.get_previous_results`: `SELECT iops, latency_ms,
bandwidth_kbs FROM test_results r JOIN test_runs tr ON r.run_id = tr.id
WHERE r.test_name = ? AND tr.id < ? ORDER BY tr.id DESC LIMIT 1`, or
`(None, None, None)` when no row qualifies. -/
def get_previous_results (db : DB) (run_id : Nat) (test_name : String) :
    Option (ℝ × ℝ × ℝ) :=
  (pickMax (db.results.filter (fun r =>
    r.test_name == test_name && db.runs.contains r.run_id &&
      decide (r.run_id < run_id)))).map
    (fun r => (r.iops, r.latency_ms, r.bandwidth_kbs))

/-! ## Trend reporting -/

/-- Result of `calc_percentage_change`: `"N/A"`, or a percentage rendered
in green (`good`, an improvement for display) or red (`bad`, a
regression).  The numeric field stands for the source's
`f"{change:.2f}%"` rendering; the `+` prefix of the non-negative case is
determined by the sign of the field. -/
inductive PctResult where
  | na : PctResult
  | good : ℚ → PctResult
  | bad : ℚ → PctResult
deriving DecidableEq

/-- `TestRunner.calc_percentage_change` (identical in all three scripts):
`N/A` when the previous value is absent or exactly zero — checked before
any division; otherwise `change = (current - previous)/previous * 100`,
coloured green when the change is an improvement (negative for latency,
non-negative otherwise) and red when it is not. -/
def calc_percentage_change (current : ℚ) (previous : Option ℚ)
    (is_latency : Bool) : PctResult :=
  match previous with
  | none => .na
  | some p =>
    if p = 0 then .na
    else
      let change := (current - p) / p * 100
      if is_latency then
        (if change < 0 then .good change else .bad change)
      else
        (if change < 0 then .bad change else .good change)

/-! ## Benchmark runner (trial loop data flow) -/

/-- One trial's outcome: `none` models a tool-invocation failure (the
`subprocess.SubprocessError` caught by `TestRunner.execute_fio_run`,
resp. by `DiskStressTester.run_test`, covering a non-zero exit and a
launch failure surfacing through the `ionice` wrapper); `some t` models a
successful invocation whose output extracted to the triple `t` (whose
components may themselves be 0.0 on extraction misses). -/
def execute_fio_run (outcome : Option (ℝ × ℝ × ℝ)) : ℝ × ℝ × ℝ :=
  outcome.getD (0, 0, 0)

/-- The per-workload data flow of `FSStressTester.run_test`
(fs_stress_test_refactored.py) and `DiskStressTester.run_test`: run every
trial (a failed trial contributes `(0,0,0)` and the loop continues), take
the geometric mean of each metric column, and save one row — always,
even when every trial failed. -/
noncomputable def run_test (db : DB) (run_id : Nat) (test_name : String)
    (outcomes : List (Option (ℝ × ℝ × ℝ))) : DB :=
  let results := outcomes.map execute_fio_run
  let gi := calculate_geomean (results.map (fun t => t.1))
  let gl := calculate_geomean (results.map (fun t => t.2.1))
  let gb := calculate_geomean (results.map (fun t => t.2.2))
  save_test_results db run_id test_name (some gi) (some gl) (some gb)

/-! ## Auxiliary definitions for the verification -/

/-- Holds when the head of the list (if any) fails the predicate. -/
@[reducible] def headFails (p : Char → Bool) : List Char → Prop
  | [] => True
  | c :: _ => p c = false

/-- Suffix group capture: the head of the rest when it is a `[kKMG]`
character. -/
def sufHead (r : List Char) : Option Char :=
  match r with
  | c :: _ => if isUnitChar c then some c else none
  | [] => none

/-- Decidable equality for `Except` results, so that concrete extractor
outputs can be settled by `decide`. -/
instance {e a : Type} [DecidableEq e] [DecidableEq a] : DecidableEq (Except e a) :=
  fun x y =>
    match x, y with
    | .ok v, .ok w =>
      if h : v = w then isTrue (by rw [h]) else isFalse (fun hc => h (Except.ok.inj hc))
    | .error v, .error w =>
      if h : v = w then isTrue (by rw [h]) else isFalse (fun hc => h (Except.error.inj hc))
    | .ok _, .error _ => isFalse (fun hc => Except.noConfusion hc)
    | .error _, .ok _ => isFalse (fun hc => Except.noConfusion hc)

/-! ## Helper lemmas: characters and scanning -/

theorem dropLit_cons_ne {k c : Char} (h : c ≠ k) (ks s : List Char) :
    dropLit (k :: ks) (c :: s) = none := by
  simp [dropLit, h]

theorem dropLit_self (lit s : List Char) : dropLit lit (lit ++ s) = some s := by
  induction lit with
  | nil => rfl
  | cons c cs ih => simp [dropLit, ih]

theorem dropLitCI_self (lit s : List Char) : dropLitCI lit (lit ++ s) = some s := by
  induction lit with
  | nil => rfl
  | cons c cs ih => simp [dropLitCI, ih]

theorem ne_of_digit {c x : Char} (h : c.isDigit = true) (hx : x.isDigit = false) :
    c ≠ x := by
  intro e
  subst e
  rw [h] at hx
  exact Bool.noConfusion hx

theorem isNumChar_of_digit {c : Char} (h : c.isDigit = true) : isNumChar c = true := by
  simp [isNumChar, h]

theorem isSpaceChar_false_of_digit {c : Char} (h : c.isDigit = true) :
    isSpaceChar c = false := by
  have h1 : c ≠ ' ' := ne_of_digit h (by decide)
  have h2 : c ≠ '\t' := ne_of_digit h (by decide)
  have h3 : c ≠ '\n' := ne_of_digit h (by decide)
  have h4 : c ≠ '\x0b' := ne_of_digit h (by decide)
  have h5 : c ≠ '\x0c' := ne_of_digit h (by decide)
  have h6 : c ≠ '\r' := ne_of_digit h (by decide)
  simp [isSpaceChar, h1, h2, h3, h4, h5, h6]

theorem skipWs_cons_of {c : Char} (r : List Char) (h : isSpaceChar c = false) :
    skipWs (c :: r) = c :: r := by
  simp [skipWs, List.dropWhile_cons, h]

theorem takeWhile_append_of (p : Char → Bool) (d r : List Char)
    (hall : ∀ c ∈ d, p c = true) (hr : headFails p r) :
    (d ++ r).takeWhile p = d ∧ (d ++ r).dropWhile p = r := by
  induction d with
  | nil =>
    simp only [List.nil_append]
    cases r with
    | nil => simp
    | cons c t =>
      have hc : p c = false := hr
      simp [List.takeWhile_cons, List.dropWhile_cons, hc]
  | cons c cs ih =>
    have hc : p c = true := hall c (by simp)
    have ih2 := ih (fun x hx => hall x (by simp [hx]))
    simp [List.takeWhile_cons, List.dropWhile_cons, hc, ih2.1, ih2.2]

theorem takeNum_append (d r : List Char) (hd : d ≠ [])
    (hall : ∀ c ∈ d, c.isDigit = true) (hr : headFails isNumChar r) :
    takeNum (d ++ r) = some (d, r) := by
  obtain ⟨h1, h2⟩ :=
    takeWhile_append_of isNumChar d r (fun c hc => isNumChar_of_digit (hall c hc)) hr
  simp only [takeNum, h1, h2]
  cases d with
  | nil => exact absurd rfl hd
  | cons c cs => rfl

theorem parseFloat_digits (d : List Char) (hd : d ≠ [])
    (hall : ∀ c ∈ d, c.isDigit = true) :
    parseFloat d = some (digitsToNat d : ℚ) := by
  have h := takeWhile_append_of Char.isDigit d [] hall trivial
  rw [List.append_nil] at h
  cases d with
  | nil => exact absurd rfl hd
  | cons c cs => simp [parseFloat, h.1, h.2]

theorem searchL_cons_some {α : Type} {t : List Char → Option α} {c : Char}
    {r : List Char} {v : α} (h : t (c :: r) = some v) :
    searchL t (c :: r) = some v := by
  simp [searchL, h]

theorem searchL_cons_none {α : Type} {t : List Char → Option α} {c : Char}
    {r : List Char} (h : t (c :: r) = none) :
    searchL t (c :: r) = searchL t r := by
  simp [searchL, h]

theorem searchL_append_none {α : Type} (t : List Char → Option α) (a b : List Char)
    (h : ∀ c ∈ a, ∀ r : List Char, t (c :: r) = none) :
    searchL t (a ++ b) = searchL t b := by
  induction a with
  | nil => rfl
  | cons c cs ih =>
    rw [List.cons_append, searchL_cons_none (h c (by simp) _)]
    exact ih (fun x hx r => h x (by simp [hx]) r)

theorem searchL_none {α : Type} (t : List Char → Option α) (s : List Char)
    (h : ∀ c ∈ s, ∀ r : List Char, t (c :: r) = none) :
    searchL t s = none := by
  have h2 := searchL_append_none t s [] h
  rw [List.append_nil] at h2
  exact h2

theorem tryKV_gate {k c : Char} (ks : List Char) (h : c ≠ k) (s : List Char) :
    tryKV (k :: ks) (c :: s) = none := by
  simp [tryKV, dropLit_cons_ne h]

theorem tryBwTail_gate (tail : List Char) {c : Char} (h : c ≠ 'b') (s : List Char) :
    tryBwTail tail (c :: s) = none := by
  simp [tryBwTail, dropLit_cons_ne h]

theorem tryLat_gate {c : Char} (h : c ≠ 'l') (s : List Char) :
    tryLat (c :: s) = none := by
  simp [tryLat, dropLit_cons_ne h]

theorem tryKV_eval (key d r : List Char) (hd : d ≠ [])
    (hall : ∀ c ∈ d, c.isDigit = true) (hr : headFails isNumChar r) :
    tryKV key (key ++ '=' :: (d ++ r)) = some (d, sufHead r) := by
  have h1 : dropLit key (key ++ '=' :: (d ++ r)) = some ('=' :: (d ++ r)) :=
    dropLit_self key _
  have h2 : skipWs ('=' :: (d ++ r)) = '=' :: (d ++ r) :=
    skipWs_cons_of _ (by decide)
  have h3 : dropLit ['='] ('=' :: (d ++ r)) = some (d ++ r) :=
    dropLit_self ['='] (d ++ r)
  have h4 : skipWs (d ++ r) = d ++ r := by
    cases d with
    | nil => exact absurd rfl hd
    | cons c cs =>
      exact skipWs_cons_of _ (isSpaceChar_false_of_digit (hall c (by simp)))
  have h5 : takeNum (d ++ r) = some (d, r) := takeNum_append d r hd hall hr
  simp only [tryKV, h1, h2, h3, h4, h5]
  cases r with
  | nil => rfl
  | cons c t =>
    by_cases hu : isUnitChar c = true
    · simp [sufHead, hu]
    · simp [sufHead, hu]

theorem tryBwTail_eval_suf (tail d rest : List Char) (u : Char) (hd : d ≠ [])
    (hall : ∀ c ∈ d, c.isDigit = true) (hu : isUnitChar u = true)
    (hnum : isNumChar u = false) :
    tryBwTail tail ('b' :: 'w' :: '=' :: (d ++ u :: (tail ++ rest))) = some (d, some u) := by
  have h1 : dropLit ['b', 'w'] ('b' :: 'w' :: '=' :: (d ++ u :: (tail ++ rest))) =
      some ('=' :: (d ++ u :: (tail ++ rest))) := dropLit_self ['b', 'w'] _
  have h2 : skipWs ('=' :: (d ++ u :: (tail ++ rest))) = '=' :: (d ++ u :: (tail ++ rest)) :=
    skipWs_cons_of _ (by decide)
  have h3 : dropLit ['='] ('=' :: (d ++ u :: (tail ++ rest))) =
      some (d ++ u :: (tail ++ rest)) := dropLit_self ['='] _
  have h4 : skipWs (d ++ u :: (tail ++ rest)) = d ++ u :: (tail ++ rest) := by
    cases d with
    | nil => exact absurd rfl hd
    | cons c cs =>
      exact skipWs_cons_of _ (isSpaceChar_false_of_digit (hall c (by simp)))
  have h5 : takeNum (d ++ u :: (tail ++ rest)) = some (d, u :: (tail ++ rest)) :=
    takeNum_append d _ hd hall hnum
  simp only [tryBwTail, h1, h2, h3, h4, h5, hu, if_true, dropLit_self tail rest]

theorem tryBwTail_noMatch_suf (tail d r2 : List Char) (u : Char) (hd : d ≠ [])
    (hall : ∀ c ∈ d, c.isDigit = true) (hu : isUnitChar u = true)
    (hnum : isNumChar u = false)
    (hm1 : dropLit tail r2 = none) (hm2 : dropLit tail (u :: r2) = none) :
    tryBwTail tail ('b' :: 'w' :: '=' :: (d ++ u :: r2)) = none := by
  have h1 : dropLit ['b', 'w'] ('b' :: 'w' :: '=' :: (d ++ u :: r2)) =
      some ('=' :: (d ++ u :: r2)) := dropLit_self ['b', 'w'] _
  have h2 : skipWs ('=' :: (d ++ u :: r2)) = '=' :: (d ++ u :: r2) :=
    skipWs_cons_of _ (by decide)
  have h3 : dropLit ['='] ('=' :: (d ++ u :: r2)) = some (d ++ u :: r2) :=
    dropLit_self ['='] _
  have h4 : skipWs (d ++ u :: r2) = d ++ u :: r2 := by
    cases d with
    | nil => exact absurd rfl hd
    | cons c cs =>
      exact skipWs_cons_of _ (isSpaceChar_false_of_digit (hall c (by simp)))
  have h5 : takeNum (d ++ u :: r2) = some (d, u :: r2) :=
    takeNum_append d _ hd hall hnum
  simp only [tryBwTail, h1, h2, h3, h4, h5, hu, if_true, hm1, hm2]

theorem tryEqBwCI_eval_suf (keyEq tail d rest : List Char) (u : Char) (hd : d ≠ [])
    (hall : ∀ c ∈ d, c.isDigit = true) (hu : isUnitCharCI u = true)
    (hnum : isNumChar u = false) :
    tryEqBwCI keyEq tail (keyEq ++ (d ++ u :: (tail ++ rest))) = some (d, some u) := by
  have h1 : dropLitCI keyEq (keyEq ++ (d ++ u :: (tail ++ rest))) =
      some (d ++ u :: (tail ++ rest)) := dropLitCI_self keyEq _
  have h4 : skipWs (d ++ u :: (tail ++ rest)) = d ++ u :: (tail ++ rest) := by
    cases d with
    | nil => exact absurd rfl hd
    | cons c cs =>
      exact skipWs_cons_of _ (isSpaceChar_false_of_digit (hall c (by simp)))
  have h5 : takeNum (d ++ u :: (tail ++ rest)) = some (d, u :: (tail ++ rest)) :=
    takeNum_append d _ hd hall hnum
  simp only [tryEqBwCI, h1, h4, h5, hu, if_true, dropLitCI_self tail rest]

theorem tryAvgNum_gate {c : Char} (h : c ≠ 'a') (s : List Char) :
    tryAvgNum (c :: s) = none := by
  simp [tryAvgNum, dropLit_cons_ne h]

theorem tryAvgNum_eval (d r : List Char) (hd : d ≠ [])
    (hall : ∀ c ∈ d, c.isDigit = true) (hr : headFails isNumChar r) :
    tryAvgNum ('a' :: 'v' :: 'g' :: '=' :: (d ++ r)) = some d := by
  have h1 : dropLit ['a', 'v', 'g'] ('a' :: 'v' :: 'g' :: '=' :: (d ++ r)) =
      some ('=' :: (d ++ r)) := dropLit_self ['a', 'v', 'g'] _
  have h2 : skipWs ('=' :: (d ++ r)) = '=' :: (d ++ r) := skipWs_cons_of _ (by decide)
  have h3 : dropLit ['='] ('=' :: (d ++ r)) = some (d ++ r) := dropLit_self ['='] _
  have h4 : skipWs (d ++ r) = d ++ r := by
    cases d with
    | nil => exact absurd rfl hd
    | cons c cs =>
      exact skipWs_cons_of _ (isSpaceChar_false_of_digit (hall c (by simp)))
  have h5 : takeNum (d ++ r) = some (d, r) := takeNum_append d r hd hall hr
  simp only [tryAvgNum, h1, h2, h3, h4, h5]

theorem lazyTo_hit {α : Type} {t : List Char → Option α} {c : Char} {r : List Char}
    {v : α} (h : t (c :: r) = some v) : lazyTo t (c :: r) = some v := by
  simp [lazyTo, h]

theorem lazyTo_step {α : Type} {t : List Char → Option α} {c : Char} {r : List Char}
    (h1 : t (c :: r) = none) (h2 : c ≠ '\n') : lazyTo t (c :: r) = lazyTo t r := by
  simp [lazyTo, h1, h2]

/-! ## Helper lemmas: store and aggregation -/

theorem pickMax_mem : ∀ {l : List Row} {m : Row}, pickMax l = some m → m ∈ l := by
  intro l
  induction l with
  | nil => intro m h; cases h
  | cons r rest ih =>
    intro m h
    cases hpm : pickMax rest with
    | none =>
      simp only [pickMax, hpm] at h
      cases h
      exact List.mem_cons_self _ _
    | some x =>
      simp only [pickMax, hpm] at h
      by_cases hc : r.run_id < x.run_id
      · rw [if_pos hc] at h
        cases h
        exact List.mem_cons_of_mem _ (ih hpm)
      · rw [if_neg hc] at h
        cases h
        exact List.mem_cons_self _ _

theorem pickMax_max : ∀ {l : List Row} {x : Row}, x ∈ l →
    (∀ y ∈ l, y = x ∨ y.run_id < x.run_id) → pickMax l = some x := by
  intro l
  induction l with
  | nil => intro x hx; cases hx
  | cons r rest ih =>
    intro x hx h
    rcases List.mem_cons.mp hx with hr | hr
    · subst hr
      cases hpm : pickMax rest with
      | none => simp only [pickMax, hpm]
      | some m =>
        simp only [pickMax, hpm]
        have hm := pickMax_mem hpm
        rcases h m (List.mem_cons_of_mem _ hm) with he | hlt
        · subst he
          rw [if_neg (lt_irrefl _)]
        · rw [if_neg (by omega)]
    · have hrest : ∀ y ∈ rest, y = x ∨ y.run_id < x.run_id :=
        fun y hy => h y (List.mem_cons_of_mem _ hy)
      simp only [pickMax, ih hr hrest]
      rcases h r (List.mem_cons_self _ _) with he | hlt
      · subst he
        rw [if_neg (lt_irrefl _)]
      · rw [if_pos hlt]

theorem list_log_sum (l : List ℝ) (h : ∀ y ∈ l, 0 < y) :
    Real.log l.prod = (l.map Real.log).sum := by
  induction l with
  | nil => simp
  | cons a t ih =>
    have ha : (0 : ℝ) < a := h a (by simp)
    have ht : ∀ y ∈ t, (0 : ℝ) < y := fun y hy => h y (by simp [hy])
    have hp : (0 : ℝ) < t.prod := List.prod_pos ht
    simp only [List.prod_cons, List.map_cons, List.sum_cons]
    rw [Real.log_mul (ne_of_gt ha) (ne_of_gt hp), ih ht]

theorem calculate_geomean_nonneg (v : List ℝ) : 0 ≤ calculate_geomean v := by
  unfold calculate_geomean
  simp only []
  split
  · exact le_refl 0
  · exact (Real.exp_pos _).le

theorem geomean_middle_zero (xs ys : List ℝ) :
    calculate_geomean (xs ++ 0 :: ys) = calculate_geomean (xs ++ ys) := by
  unfold calculate_geomean
  rw [List.filter_append, List.filter_append, List.filter_cons]
  simp [lt_irrefl]

theorem filter_replicate_zero (n : ℕ) :
    (List.replicate n (0 : ℝ)).filter (fun x => decide (0 < x)) = [] := by
  induction n with
  | zero => rfl
  | succ k ih => simp [List.replicate_succ, List.filter_cons, lt_irrefl, ih]

/-! ## Claim theorems -/

/-- Claim C2 (confirmed): for every finite list of per-trial metric
values, `calculate_geomean` equals the spec's geometric mean (n-th root
of the product) of the subsequence of strictly-positive entries, and
equals 0.0 when the list is empty or has no strictly-positive entry; in
particular `[100,100,100] ↦ 100.0`, `[0,0,0] ↦ 0.0`, `[] ↦ 0.0`, and
`[50,0,200] ↦ geomean [50,200] = 100` (zero entries are excluded, not
multiplied in). -/
theorem c2_trial_aggregation :
    (∀ values : List ℝ,
      calculate_geomean values =
        geomean_spec (values.filter (fun x => decide (0 < x)))) ∧
    calculate_geomean [100, 100, 100] = 100 ∧
    calculate_geomean [0, 0, 0] = 0 ∧
    calculate_geomean [] = 0 ∧
    calculate_geomean [50, 0, 200] = geomean_spec [50, 200] ∧
    calculate_geomean [50, 0, 200] = 100 := by
  have d100 : decide ((0 : ℝ) < 100) = true := decide_eq_true (by norm_num)
  have d50 : decide ((0 : ℝ) < 50) = true := decide_eq_true (by norm_num)
  have d200 : decide ((0 : ℝ) < 200) = true := decide_eq_true (by norm_num)
  have d0 : decide ((0 : ℝ) < 0) = false := decide_eq_false (lt_irrefl 0)
  have main : ∀ values : List ℝ,
      calculate_geomean values =
        geomean_spec (values.filter (fun x => decide (0 < x))) := by
    intro values
    unfold calculate_geomean geomean_spec
    simp only []
    by_cases hv : (values.filter (fun x => decide (0 < x))).isEmpty
    · rw [if_pos hv, if_pos hv]
    · rw [if_neg hv, if_neg hv]
      have hpos : ∀ x ∈ values.filter (fun x => decide (0 < x)), (0 : ℝ) < x := by
        intro x hx
        exact of_decide_eq_true (List.mem_filter.mp hx).2
      have hprod : (0 : ℝ) < (values.filter (fun x => decide (0 < x))).prod :=
        List.prod_pos hpos
      rw [Real.rpow_def_of_pos hprod, list_log_sum _ hpos]
      congr 1
      rw [mul_one_div]
  have e100 : calculate_geomean [100, 100, 100] = 100 := by
    unfold calculate_geomean
    simp only [List.filter_cons, List.filter_nil, d100, if_true, List.isEmpty,
      List.map_cons, List.map_nil, List.sum_cons, List.sum_nil, List.length_cons,
      List.length_nil, Bool.false_eq_true, if_false]
    have h : (Real.log 100 + (Real.log 100 + (Real.log 100 + 0))) / ((0 : ℕ) + 1 + 1 + 1 : ℕ) =
        Real.log 100 := by
      push_cast
      ring
    rw [h, Real.exp_log (by norm_num : (0 : ℝ) < 100)]
  have e000 : calculate_geomean [0, 0, 0] = 0 := by
    unfold calculate_geomean
    simp [List.filter_cons, d0]
  have enil : calculate_geomean [] = 0 := by
    unfold calculate_geomean
    simp
  have efilter : ([50, 0, 200] : List ℝ).filter (fun x => decide (0 < x)) = [50, 200] := by
    simp only [List.filter_cons, List.filter_nil, d50, d0, d200, if_true,
      Bool.false_eq_true, if_false]
  have e50 : calculate_geomean [50, 0, 200] = geomean_spec [50, 200] := by
    rw [main [50, 0, 200], efilter]
  have e50v : calculate_geomean [50, 0, 200] = 100 := by
    unfold calculate_geomean
    rw [efilter]
    simp only [List.isEmpty, List.map_cons, List.map_nil, List.sum_cons, List.sum_nil,
      List.length_cons, List.length_nil, Bool.false_eq_true, if_false]
    have hmul : Real.log 50 + (Real.log 200 + 0) = Real.log 10000 := by
      rw [show Real.log 10000 = Real.log (50 * 200) by norm_num,
        Real.log_mul (by norm_num) (by norm_num)]
      ring
    have hpow : Real.log 10000 = 2 * Real.log 100 := by
      rw [show (10000 : ℝ) = 100 ^ (2 : ℕ) by norm_num, Real.log_pow]
      push_cast
      ring
    have h : (Real.log 50 + (Real.log 200 + 0)) / ((0 : ℕ) + 1 + 1 : ℕ) = Real.log 100 := by
      rw [hmul, hpow]
      push_cast
      ring
    rw [h, Real.exp_log (by norm_num : (0 : ℝ) < 100)]
  exact ⟨main, e100, e000, enil, e50, e50v⟩


/-- Reduced form of `calc_percentage_change` for a present non-zero
previous value. -/
theorem calc_pct_some (c p : ℚ) (b : Bool) (hp : p ≠ 0) :
    calc_percentage_change c (some p) b =
      if (c - p) / p * 100 < 0 then
        (if b then PctResult.good ((c - p) / p * 100) else PctResult.bad ((c - p) / p * 100))
      else
        (if b then PctResult.bad ((c - p) / p * 100) else PctResult.good ((c - p) / p * 100)) := by
  unfold calc_percentage_change
  simp only []
  rw [if_neg hp]
  cases b <;> rfl

/-- Claim C4 (confirmed): the trend reporter computes
`(current - previous)/previous * 100` and classifies its sign (for
`is_latency` a negative percentage is green/improvement, otherwise a
non-negative one is); an absent or exactly-zero previous value yields
`N/A` with no division attempted; `trend(120, 100, false)` reports
improvement `+20.00%` and `trend(8, 10, true)` improvement `-20.00%`. -/
theorem c4_trend_reporter :
    (∀ (c : ℚ) (b : Bool), calc_percentage_change c none b = PctResult.na) ∧
    (∀ (c : ℚ) (b : Bool), calc_percentage_change c (some 0) b = PctResult.na) ∧
    (∀ (c p : ℚ) (b : Bool), p ≠ 0 →
      (calc_percentage_change c (some p) b = PctResult.good ((c - p) / p * 100) ∨
        calc_percentage_change c (some p) b = PctResult.bad ((c - p) / p * 100)) ∧
      (calc_percentage_change c (some p) b = PctResult.good ((c - p) / p * 100) ↔
        (if b then (c - p) / p * 100 < 0 else 0 ≤ (c - p) / p * 100))) ∧
    calc_percentage_change 120 (some 100) false = PctResult.good 20 ∧
    calc_percentage_change 8 (some 10) true = PctResult.good (-20) := by
  refine ⟨fun c b => rfl, fun c b => rfl, ?_, ?_, ?_⟩
  · intro c p b hp
    rw [calc_pct_some c p b hp]
    by_cases hl : (c - p) / p * 100 < 0
    · rw [if_pos hl]
      cases b with
      | false =>
        refine ⟨Or.inr rfl, ?_⟩
        constructor
        · intro h
          exact absurd h (fun h2 => PctResult.noConfusion h2)
        · intro h
          exact absurd (show (0 : ℚ) ≤ (c - p) / p * 100 from h) (not_le.mpr hl)
      | true =>
        refine ⟨Or.inl rfl, ?_⟩
        constructor
        · intro _
          exact hl
        · intro _
          rfl
    · rw [if_neg hl]
      cases b with
      | false =>
        refine ⟨Or.inl rfl, ?_⟩
        constructor
        · intro _
          exact not_lt.mp hl
        · intro _
          rfl
      | true =>
        refine ⟨Or.inr rfl, ?_⟩
        constructor
        · intro h
          exact absurd h (fun h2 => PctResult.noConfusion h2)
        · intro h
          exact absurd (show (c - p) / p * 100 < 0 from h) hl
  · unfold calc_percentage_change
    norm_num
  · unfold calc_percentage_change
    norm_num

/-- Claim C4 witness: the sign-classification part applied at the
concrete inputs of the claim. -/
theorem c4_trend_reporter_witness :
    (calc_percentage_change 120 (some 100) false = PctResult.good ((120 - 100) / 100 * 100) ∨
      calc_percentage_change 120 (some 100) false = PctResult.bad ((120 - 100) / 100 * 100)) ∧
    (calc_percentage_change 120 (some 100) false = PctResult.good ((120 - 100) / 100 * 100) ↔
      (if false then ((120 - 100) / 100 * 100 : ℚ) < 0
       else (0 : ℚ) ≤ (120 - 100) / 100 * 100)) := by
  exact c4_trend_reporter.2.2.1 120 100 false (by norm_num)

/-- Claim C7 counterexample: the unit converter is NOT case-insensitive.
An uppercase `"K"` suffix under the decimal basis multiplies by 1 (the
dict-lookup default), not by 1000 as the claim's "k/m/g
(case-insensitive)" wording requires. -/
theorem c7_counterexample :
    convert_units 5 "K" false = 5 ∧ convert_units 5 "K" false ≠ 5000 := by
  have h : convert_units 5 "K" false = 5 * 1 := rfl
  rw [h]
  norm_num

/-- Claim C7 as amended (proved): `convert(value, suffix, basis) = value
* multiplier(suffix, basis)` where the multiplier is 1000/1e6/1e9 for
LOWERCASE k/m/g under the decimal basis and 1024/1024²/1024³ under the
binary basis; no suffix leaves the value unchanged; and any other suffix
string — including the uppercase letters such as K — acts as multiplier
1, never an undefined factor.  (Case-insensitivity lives in the callers,
which lowercase the captured group before the call.) -/
theorem c7_unit_converter_amended :
    (∀ (val : ℚ) (unit : String) (binary : Bool),
      convert_units val unit binary = val * suffix_multiplier unit binary) ∧
    (∀ (val : ℚ) (binary : Bool), convert_units val "" binary = val) ∧
    (∀ (val : ℚ) (binary : Bool), convert_units val "K" binary = val) := by
  refine ⟨?_, fun val binary => rfl, ?_⟩
  · intro val unit binary
    unfold convert_units
    by_cases h0 : unit = ""
    · subst h0
      rw [if_pos rfl]
      have h1 : suffix_multiplier "" binary = 1 := rfl
      rw [h1, mul_one]
    · rw [if_neg h0]
      unfold suffix_multiplier
      cases binary <;> rfl
  · intro val binary
    have h : convert_units val "K" binary = val * 1 := by cases binary <;> rfl
    rw [h, mul_one]

/-- Claim C3 (confirmed): round-trip through the results store.  A triple
persisted for run `r1` (whose run row exists) is returned by
`get_previous_results` from any later run `r2 > r1` while every other
row for that name belongs to an earlier run; querying with `r2 ≤ r1`
(when this is the name's only row) returns absent; and among several
qualifying rows for a name, the one with the highest run id strictly
below the current run id is returned. -/
theorem c3_store_roundtrip :
    (∀ (db : DB) (r1 r2 : Nat) (name : String) (i l b : ℝ),
      r1 < r2 →
      (∀ r ∈ db.results, r.test_name = name → r.run_id < r1) →
      get_previous_results
        (save_test_results ⟨r1 :: db.runs, db.results⟩ r1 name (some i) (some l) (some b))
        r2 name = some (i, l, b)) ∧
    (∀ (db : DB) (r1 r2 : Nat) (name : String) (i l b : ℝ),
      r2 ≤ r1 →
      (∀ r ∈ db.results, r.test_name ≠ name) →
      get_previous_results
        (save_test_results ⟨r1 :: db.runs, db.results⟩ r1 name (some i) (some l) (some b))
        r2 name = none) ∧
    (∀ (db : DB) (rid : Nat) (name : String) (x : Row),
      x ∈ db.results → x.test_name = name → db.runs.contains x.run_id = true →
      x.run_id < rid →
      (∀ r ∈ db.results, r.test_name = name → db.runs.contains r.run_id = true →
        r.run_id < rid → r = x ∨ r.run_id < x.run_id) →
      get_previous_results db rid name = some (x.iops, x.latency_ms, x.bandwidth_kbs)) := by
  refine ⟨?_, ?_, ?_⟩
  · intro db r1 r2 name i l b hlt hold
    unfold get_previous_results save_test_results
    simp only [Option.getD_some]
    rw [List.filter_append]
    have hcond : (((⟨r1, name, i, l, b⟩ : Row).test_name == name) &&
        (r1 :: db.runs).contains (⟨r1, name, i, l, b⟩ : Row).run_id &&
        decide ((⟨r1, name, i, l, b⟩ : Row).run_id < r2)) = true := by
      simp [List.contains_cons, hlt]
    have hfnew : List.filter (fun r =>
        r.test_name == name && (r1 :: db.runs).contains r.run_id && decide (r.run_id < r2))
        [(⟨r1, name, i, l, b⟩ : Row)] = [(⟨r1, name, i, l, b⟩ : Row)] := by
      rw [List.filter_cons, if_pos hcond, List.filter_nil]
    rw [hfnew]
    have hmax : pickMax (List.filter (fun r =>
        r.test_name == name && (r1 :: db.runs).contains r.run_id && decide (r.run_id < r2))
        db.results ++ [(⟨r1, name, i, l, b⟩ : Row)]) = some (⟨r1, name, i, l, b⟩ : Row) := by
      apply pickMax_max
      · exact List.mem_append.mpr (Or.inr (List.mem_singleton.mpr rfl))
      · intro y hy
        rcases List.mem_append.mp hy with hy1 | hy1
        · obtain ⟨hy2, hy3⟩ := List.mem_filter.mp hy1
          simp only [Bool.and_eq_true, beq_iff_eq, decide_eq_true_eq] at hy3
          exact Or.inr (hold y hy2 hy3.1.1)
        · exact Or.inl (List.mem_singleton.mp hy1)
    rw [hmax]
    rfl
  · intro db r1 r2 name i l b hle hold
    unfold get_previous_results save_test_results
    simp only [Option.getD_some]
    rw [List.filter_append]
    have hd2 : decide (r1 < r2) = false := decide_eq_false (by omega)
    have hemp1 : List.filter (fun r =>
        r.test_name == name && (r1 :: db.runs).contains r.run_id && decide (r.run_id < r2))
        db.results = [] := by
      rw [List.filter_eq_nil_iff]
      intro r hr
      simp only [Bool.and_eq_true, beq_iff_eq, decide_eq_true_eq, not_and]
      intro h1
      exact absurd h1.1 (hold r hr)
    have hemp2 : List.filter (fun r =>
        r.test_name == name && (r1 :: db.runs).contains r.run_id && decide (r.run_id < r2))
        [(⟨r1, name, i, l, b⟩ : Row)] = [] := by
      rw [List.filter_cons, if_neg, List.filter_nil]
      simp [hd2]
    rw [hemp1, hemp2]
    rfl
  · intro db rid name x hx hname hcont hlt h
    unfold get_previous_results
    have hxf : x ∈ db.results.filter (fun r =>
        r.test_name == name && db.runs.contains r.run_id && decide (r.run_id < rid)) := by
      rw [List.mem_filter]
      refine ⟨hx, ?_⟩
      simp only [Bool.and_eq_true, beq_iff_eq, decide_eq_true_eq]
      exact ⟨⟨hname, hcont⟩, hlt⟩
    have hmax : pickMax (db.results.filter (fun r =>
        r.test_name == name && db.runs.contains r.run_id && decide (r.run_id < rid))) =
        some x := by
      apply pickMax_max hxf
      intro y hy
      obtain ⟨hy1, hy2⟩ := List.mem_filter.mp hy
      simp only [Bool.and_eq_true, beq_iff_eq, decide_eq_true_eq] at hy2
      exact h y hy1 hy2.1.1 hy2.1.2 hy2.2
    rw [hmax]
    rfl

/-- Claim C3 witness: the three parts applied at concrete stores. -/
theorem c3_store_roundtrip_witness :
    get_previous_results
      (save_test_results ⟨1 :: ([] : List Nat), ([] : List Row)⟩ 1 "Random Writes"
        (some 10) (some 2) (some 300)) 2 "Random Writes" = some (10, 2, 300) ∧
    get_previous_results
      (save_test_results ⟨1 :: ([] : List Nat), ([] : List Row)⟩ 1 "Random Writes"
        (some 10) (some 2) (some 300)) 1 "Random Writes" = none ∧
    get_previous_results
      ⟨[1, 2], [⟨1, "a", 10, 11, 12⟩, ⟨2, "a", 20, 21, 22⟩]⟩ 3 "a" =
      some ((⟨2, "a", 20, 21, 22⟩ : Row).iops, (⟨2, "a", 20, 21, 22⟩ : Row).latency_ms,
        (⟨2, "a", 20, 21, 22⟩ : Row).bandwidth_kbs) := by
  refine ⟨?_, ?_, ?_⟩
  · exact c3_store_roundtrip.1 ⟨[], []⟩ 1 2 "Random Writes" 10 2 300 (by omega)
      (fun r hr => absurd hr (List.not_mem_nil r))
  · exact c3_store_roundtrip.2.1 ⟨[], []⟩ 1 1 "Random Writes" 10 2 300 (le_refl 1)
      (fun r hr => absurd hr (List.not_mem_nil r))
  · refine c3_store_roundtrip.2.2 ⟨[1, 2], [⟨1, "a", 10, 11, 12⟩, ⟨2, "a", 20, 21, 22⟩]⟩
      3 "a" ⟨2, "a", 20, 21, 22⟩ ?_ rfl (by decide) (by decide) ?_
    · exact List.mem_cons_of_mem _ (List.mem_singleton.mpr rfl)
    · intro r hr _ _ _
      rcases List.mem_cons.mp hr with h1 | h1
      · subst h1
        exact Or.inr (by decide)
      · exact Or.inl (List.mem_singleton.mp h1)

/-- Claim C8 (confirmed): every metric of every persisted row is a plain
non-negative real — the geometric means flowing into
`save_test_results` are non-negative (exactly 0.0 being the "no data"
sentinel), the `None → 0.0` coercion forbids null columns, and running a
workload (failures included) preserves the invariant over the whole
store. -/
theorem c8_nonneg_invariant :
    ∀ (db : DB) (rid : Nat) (name : String) (outcomes : List (Option (ℝ × ℝ × ℝ))),
    (∀ r ∈ db.results, 0 ≤ r.iops ∧ 0 ≤ r.latency_ms ∧ 0 ≤ r.bandwidth_kbs) →
    ∀ r ∈ (run_test db rid name outcomes).results,
      0 ≤ r.iops ∧ 0 ≤ r.latency_ms ∧ 0 ≤ r.bandwidth_kbs := by
  intro db rid name outcomes hdb r hr
  unfold run_test save_test_results at hr
  simp only [] at hr
  rcases List.mem_append.mp hr with h | h
  · exact hdb r h
  · rw [List.mem_singleton.mp h]
    exact ⟨calculate_geomean_nonneg _, calculate_geomean_nonneg _, calculate_geomean_nonneg _⟩

/-- Claim C8 witness: the invariant applied to an empty store and a
workload whose only trial failed. -/
theorem c8_nonneg_invariant_witness :
    (run_test ⟨[], []⟩ 1 "Random Writes" [none]).results.Forall
      (fun r => 0 ≤ r.iops ∧ 0 ≤ r.latency_ms ∧ 0 ≤ r.bandwidth_kbs) :=
  List.forall_iff_forall_mem.mpr
    (c8_nonneg_invariant ⟨[], []⟩ 1 "Random Writes" [none]
      (fun r hr => absurd hr (List.not_mem_nil r)))

/-- Claim C9 (confirmed): a trial whose tool invocation failed
contributes nothing to any of the three aggregates (deleting it from the
trial list leaves the resulting store unchanged, so the remaining trials
still determine the result), and a workload in which every trial failed
still records a `WorkloadResult` row with all three metrics 0.0 rather
than being skipped. -/
theorem c9_failed_trial_handling :
    (∀ (db : DB) (rid : Nat) (name : String)
        (pre post : List (Option (ℝ × ℝ × ℝ))),
      run_test db rid name (pre ++ none :: post) = run_test db rid name (pre ++ post)) ∧
    (∀ (db : DB) (rid : Nat) (name : String) (n : ℕ),
      run_test db rid name (List.replicate n none) =
        save_test_results db rid name (some 0) (some 0) (some 0)) := by
  have hzero : execute_fio_run none = ((0 : ℝ), (0 : ℝ), (0 : ℝ)) := rfl
  constructor
  · intro db rid name pre post
    unfold run_test
    simp only [List.map_append, List.map_cons, hzero]
    rw [geomean_middle_zero, geomean_middle_zero, geomean_middle_zero]
  · intro db rid name n
    unfold run_test
    simp only [List.map_replicate, hzero]
    have hg : calculate_geomean (List.replicate n (0 : ℝ)) = 0 := by
      unfold calculate_geomean
      simp only [filter_replicate_zero, List.isEmpty_nil, if_true]
    simp only [hg]

/-! ## Helper lemmas: evaluating the extractors from search facts -/

theorem dropLit_cons_eq {k c : Char} (h : c = k) (ks s : List Char) :
    dropLit (k :: ks) (c :: s) = dropLit ks s := by
  simp [dropLit, h]

theorem tryKV_none_of_key (key s : List Char) (h : dropLit key s = none) :
    tryKV key s = none := by
  simp [tryKV, h]

theorem lazyTo_nl {α : Type} {t : List Char → Option α} {r : List Char}
    (h : t ('\n' :: r) = none) : lazyTo t ('\n' :: r) = none := by
  simp [lazyTo, h]

theorem ref_iops_eval1 (s tok : List Char) (suf : Option Char)
    (hs : searchL (tryKV ['i', 'o', 'p', 's']) s = some (tok, suf))
    (hd : tok ≠ []) (hall : ∀ c ∈ tok, c.isDigit = true) :
    Refactored.extract_iops s =
      .ok (some (convert_units (digitsToNat tok) (unitOf suf) false)) := by
  simp only [Refactored.extract_iops, hs, parseFloat_digits tok hd hall]

theorem ref_iops_eval2 (s tok : List Char) (suf : Option Char)
    (h1 : searchL (tryKV ['i', 'o', 'p', 's']) s = none)
    (hs : searchL (tryKV ['I', 'O', 'P', 'S']) s = some (tok, suf))
    (hd : tok ≠ []) (hall : ∀ c ∈ tok, c.isDigit = true) :
    Refactored.extract_iops s =
      .ok (some (convert_units (digitsToNat tok) (unitOf suf) false)) := by
  simp only [Refactored.extract_iops, h1, hs, parseFloat_digits tok hd hall]

theorem ref_iops_none (s : List Char)
    (h1 : searchL (tryKV ['i', 'o', 'p', 's']) s = none)
    (h2 : searchL (tryKV ['I', 'O', 'P', 'S']) s = none) :
    Refactored.extract_iops s = .ok none := by
  simp only [Refactored.extract_iops, h1, h2]

theorem ref_iops_err (s tok : List Char) (suf : Option Char)
    (hs : searchL (tryKV ['i', 'o', 'p', 's']) s = some (tok, suf))
    (hp : parseFloat tok = none) :
    Refactored.extract_iops s = .error () := by
  simp only [Refactored.extract_iops, hs, hp]

theorem ref_metrics_err (s : List Char)
    (h : Refactored.extract_iops s = .error ()) :
    Refactored.extract_metrics s = .error () := by
  simp only [Refactored.extract_metrics, h]

theorem ref_lat_eval (s tok : List Char)
    (hs : searchL tryLat s = some tok)
    (hd : tok ≠ []) (hall : ∀ c ∈ tok, c.isDigit = true) :
    Refactored.extract_latency s = .ok (some (digitsToNat tok)) := by
  simp only [Refactored.extract_latency, hs, parseFloat_digits tok hd hall]

theorem ref_lat_none (s : List Char) (hs : searchL tryLat s = none) :
    Refactored.extract_latency s = .ok none := by
  simp only [Refactored.extract_latency, hs]

theorem ref_bw_eval1 (s tok : List Char) (suf : Option Char)
    (hs : searchL (tryBwTail ['i', 'B', '/', 's']) s = some (tok, suf))
    (hd : tok ≠ []) (hall : ∀ c ∈ tok, c.isDigit = true) :
    Refactored.extract_bandwidth s =
      .ok (some (convert_units (digitsToNat tok) (unitOf suf) true)) := by
  simp only [Refactored.extract_bandwidth, hs, parseFloat_digits tok hd hall]

theorem ref_bw_eval2 (s tok : List Char) (suf : Option Char)
    (h1 : searchL (tryBwTail ['i', 'B', '/', 's']) s = none)
    (hs : searchL (tryBwTail ['B', '/', 's']) s = some (tok, suf))
    (hd : tok ≠ []) (hall : ∀ c ∈ tok, c.isDigit = true) :
    Refactored.extract_bandwidth s =
      .ok (some (convert_units (digitsToNat tok) (unitOf suf) true)) := by
  simp only [Refactored.extract_bandwidth, h1, hs, parseFloat_digits tok hd hall]

theorem ref_bw_none (s : List Char)
    (h1 : searchL (tryBwTail ['i', 'B', '/', 's']) s = none)
    (h2 : searchL (tryBwTail ['B', '/', 's']) s = none) :
    Refactored.extract_bandwidth s = .ok none := by
  simp only [Refactored.extract_bandwidth, h1, h2]

theorem fs_iops_none (s : List Char)
    (h1 : searchL (tryKV ['i', 'o', 'p', 's']) s = none)
    (h2 : searchL (tryKV ['I', 'O', 'P', 'S']) s = none) :
    FS.extract_metric s "iops" = some 0 := by
  unfold FS.extract_metric
  rw [if_pos rfl]
  have h : FS.extract_iops s = .ok 0 := by
    simp only [FS.extract_iops, h1, h2]
  rw [h]

theorem fs_iops_badnum (s tok : List Char) (suf : Option Char)
    (hs : searchL (tryKV ['i', 'o', 'p', 's']) s = some (tok, suf))
    (hp : parseFloat tok = none) :
    FS.extract_metric s "iops" = some 0 := by
  unfold FS.extract_metric
  rw [if_pos rfl]
  have h : FS.extract_iops s = .error () := by
    simp only [FS.extract_iops, hs, hp]
  rw [h]

theorem fs_lat_eval (s tok : List Char)
    (hs : searchL tryLat s = some tok)
    (hd : tok ≠ []) (hall : ∀ c ∈ tok, c.isDigit = true) :
    FS.extract_metric s "lat" = some ((digitsToNat tok : ℚ)) := by
  unfold FS.extract_metric
  rw [if_neg (by decide), if_pos rfl]
  have h : FS.extract_latency s = .ok (digitsToNat tok) := by
    simp only [FS.extract_latency, hs, parseFloat_digits tok hd hall]
  rw [h]

theorem fs_bw_eval1 (s tok : List Char) (suf : Option Char)
    (hs : searchL (tryBwTail ['i', 'B', '/', 's']) s = some (tok, suf))
    (hd : tok ≠ []) (hall : ∀ c ∈ tok, c.isDigit = true) :
    FS.extract_metric s "bw" = some (convert_units (digitsToNat tok) (unitOf suf) true) := by
  unfold FS.extract_metric
  rw [if_neg (by decide), if_neg (by decide), if_pos rfl]
  have h : FS.extract_bandwidth s = .ok (convert_units (digitsToNat tok) (unitOf suf) true) := by
    simp only [FS.extract_bandwidth, hs, parseFloat_digits tok hd hall]
  rw [h]

theorem fs_bw_eval2 (s tok : List Char) (suf : Option Char)
    (h1 : searchL (tryBwTail ['i', 'B', '/', 's']) s = none)
    (hs : searchL (tryBwTail ['B', '/', 's']) s = some (tok, suf))
    (hd : tok ≠ []) (hall : ∀ c ∈ tok, c.isDigit = true) :
    FS.extract_metric s "bw" = some (convert_units (digitsToNat tok) (unitOf suf) true) := by
  unfold FS.extract_metric
  rw [if_neg (by decide), if_neg (by decide), if_pos rfl]
  have h : FS.extract_bandwidth s = .ok (convert_units (digitsToNat tok) (unitOf suf) true) := by
    simp only [FS.extract_bandwidth, h1, hs, parseFloat_digits tok hd hall]
  rw [h]

theorem disk_iops_eval1 (s tok : List Char) (suf : Option Char)
    (hs : searchL (tryKV ['i', 'o', 'p', 's']) s = some (tok, suf))
    (hd : tok ≠ []) (hall : ∀ c ∈ tok, c.isDigit = true) :
    Disk.extract_metric s "iops" = convert_units (digitsToNat tok) (unitOf suf) false := by
  unfold Disk.extract_metric
  rw [if_pos rfl]
  have h : Disk.extract_iops s = .ok (convert_units (digitsToNat tok) (unitOf suf) false) := by
    simp only [Disk.extract_iops, hs, parseFloat_digits tok hd hall]
  rw [h]

theorem disk_iops_none (s : List Char)
    (h1 : searchL (tryKV ['i', 'o', 'p', 's']) s = none)
    (h2 : searchL (tryKV ['I', 'O', 'P', 'S']) s = none) :
    Disk.extract_metric s "iops" = 0 := by
  unfold Disk.extract_metric
  rw [if_pos rfl]
  have h : Disk.extract_iops s = .ok 0 := by
    simp only [Disk.extract_iops, h1, h2]
  rw [h]

theorem disk_iops_badnum (s tok : List Char) (suf : Option Char)
    (hs : searchL (tryKV ['i', 'o', 'p', 's']) s = some (tok, suf))
    (hp : parseFloat tok = none) :
    Disk.extract_metric s "iops" = 0 := by
  unfold Disk.extract_metric
  rw [if_pos rfl]
  have h : Disk.extract_iops s = .error () := by
    simp only [Disk.extract_iops, hs, hp]
  rw [h]

theorem disk_lat_eval (s tok : List Char)
    (hs : searchL tryLat s = some tok)
    (hd : tok ≠ []) (hall : ∀ c ∈ tok, c.isDigit = true) :
    Disk.extract_metric s "lat" = digitsToNat tok := by
  unfold Disk.extract_metric
  rw [if_neg (by decide), if_pos rfl]
  have h : Disk.extract_latency s = .ok (digitsToNat tok) := by
    simp only [Disk.extract_latency, hs, parseFloat_digits tok hd hall]
  rw [h]

theorem disk_lat_none (s : List Char) (hs : searchL tryLat s = none) :
    Disk.extract_metric s "lat" = 0 := by
  unfold Disk.extract_metric
  rw [if_neg (by decide), if_pos rfl]
  have h : Disk.extract_latency s = .ok 0 := by
    simp only [Disk.extract_latency, hs]
  rw [h]

theorem disk_bw_eval1 (s tok : List Char) (suf : Option Char)
    (hs : searchL (tryBwTail ['i', 'B', '/', 's']) s = some (tok, suf))
    (hd : tok ≠ []) (hall : ∀ c ∈ tok, c.isDigit = true) :
    Disk.extract_metric s "bw" =
      convert_units (digitsToNat tok) (unitOf suf) true / 1024 := by
  unfold Disk.extract_metric
  rw [if_neg (by decide), if_neg (by decide), if_pos rfl]
  have h : Disk.extract_bandwidth s =
      .ok (convert_units (digitsToNat tok) (unitOf suf) true / 1024) := by
    simp only [Disk.extract_bandwidth, hs, parseFloat_digits tok hd hall]
  rw [h]

theorem disk_bw_eval2 (s tok : List Char) (suf : Option Char)
    (h1 : searchL (tryBwTail ['i', 'B', '/', 's']) s = none)
    (hs : searchL (tryBwTail ['B', '/', 's']) s = some (tok, suf))
    (hd : tok ≠ []) (hall : ∀ c ∈ tok, c.isDigit = true) :
    Disk.extract_metric s "bw" =
      convert_units (digitsToNat tok) (unitOf suf) false / 1024 := by
  unfold Disk.extract_metric
  rw [if_neg (by decide), if_neg (by decide), if_pos rfl]
  have h : Disk.extract_bandwidth s =
      .ok (convert_units (digitsToNat tok) (unitOf suf) false / 1024) := by
    simp only [Disk.extract_bandwidth, h1, hs, parseFloat_digits tok hd hall]
  rw [h]

theorem disk_bw_fb1 (s tok : List Char) (suf : Option Char)
    (h1 : searchL (tryBwTail ['i', 'B', '/', 's']) s = none)
    (h2 : searchL (tryBwTail ['B', '/', 's']) s = none)
    (hs : searchL (tryEqBwCI ['B', 'W', '='] ['i', 'B', '/', 's']) s = some (tok, suf))
    (hd : tok ≠ []) (hall : ∀ c ∈ tok, c.isDigit = true) :
    Disk.extract_metric s "bw" =
      (digitsToNat tok : ℚ) * binMult (unitOf suf) / 1024 := by
  unfold Disk.extract_metric
  rw [if_neg (by decide), if_neg (by decide), if_pos rfl]
  have h : Disk.extract_bandwidth s =
      .ok ((digitsToNat tok : ℚ) * binMult (unitOf suf) / 1024) := by
    simp only [Disk.extract_bandwidth, h1, h2, hs, parseFloat_digits tok hd hall]
  rw [h]

theorem forall_mem_append_char {P : Char → Prop} {a b : List Char}
    (ha : ∀ c ∈ a, P c) (hb : ∀ c ∈ b, P c) : ∀ c ∈ a ++ b, P c :=
  fun c hc => (List.mem_append.mp hc).elim (ha c) (hb c)

/-- Claim C6 counterexample: throughput-key matching is NOT
case-insensitive.  On `Iops=5` (a mixed-case spelling) the extractor
returns the absent signal, while the claim's case-insensitive matcher
finds the value 5. -/
theorem c6_counterexample :
    Refactored.extract_iops ("Iops=5".toList) = .ok none ∧
    iops_claim_spec ("Iops=5".toList) = some 5 := by
  constructor
  · exact ref_iops_none _ (by decide) (by decide)
  · have hs : searchL (tryKVCI ['i', 'o', 'p', 's']) ("Iops=5".toList) =
        some (['5'], none) := by decide
    simp only [iops_claim_spec, hs, parseFloat_digits ['5'] (by decide) (by decide)]
    have h5 : digitsToNat ['5'] = 5 := by decide
    rw [h5]
    have hcv : convert_units ((5 : ℕ) : ℚ) (unitOf none) false = ((5 : ℕ) : ℚ) := rfl
    rw [hcv]
    norm_num

/-- Claim C6 as amended (proved): throughput extraction tries exactly two
CASE-SENSITIVE spellings, lowercase `iops` first and uppercase `IOPS`
second, over the whole text (so a lowercase match anywhere beats an
uppercase match that appears earlier), returning the first successful
`<key>\s*=\s*<number><optional-suffix>` match with any K/M/G suffix
resolved using decimal bases (1000, 1e6, 1e9); a spelling such as `Iops`
matches neither pattern. -/
theorem c6_throughput_amended (d d2 : List Char) (hd : d ≠ [])
    (hall : ∀ c ∈ d, c.isDigit = true) (hd2 : d2 ≠ [])
    (hall2 : ∀ c ∈ d2, c.isDigit = true) :
    Refactored.extract_iops ("iops=".toList ++ d ++ "k".toList) =
      .ok (some ((digitsToNat d : ℚ) * 1000)) ∧
    Refactored.extract_iops ("IOPS=".toList ++ d ++ "M".toList) =
      .ok (some ((digitsToNat d : ℚ) * 1000000)) ∧
    Refactored.extract_iops ("Iops=".toList ++ d) = .ok none ∧
    Refactored.extract_iops (("IOPS=".toList ++ d ++ " ".toList) ++ ("iops=".toList ++ d2)) =
      .ok (some ((digitsToNat d2 : ℚ))) ∧
    Disk.extract_metric ("iops=".toList ++ d ++ "k".toList) "iops" =
      (digitsToNat d : ℚ) * 1000 := by
  have hne_i : ∀ c ∈ d, c ≠ 'i' := fun c hc => ne_of_digit (hall c hc) (by decide)
  have hne_I : ∀ c ∈ d, c ≠ 'I' := fun c hc => ne_of_digit (hall c hc) (by decide)
  have hu_k : unitOf (some 'k') = "k" := rfl
  have hcv_k : ∀ v : ℚ, convert_units v "k" false = v * 1000 := fun v => rfl
  have hs1 : searchL (tryKV ['i', 'o', 'p', 's']) ("iops=".toList ++ d ++ "k".toList) =
      some (d, some 'k') :=
    searchL_cons_some (tryKV_eval ['i', 'o', 'p', 's'] d ['k'] hd hall (by decide))
  have p1 : Refactored.extract_iops ("iops=".toList ++ d ++ "k".toList) =
      .ok (some ((digitsToNat d : ℚ) * 1000)) := by
    rw [ref_iops_eval1 _ d (some 'k') hs1 hd hall, hu_k, hcv_k]
  have hmem21 : ∀ c ∈ "IOPS=".toList ++ d ++ "M".toList, c ≠ 'i' :=
    forall_mem_append_char (forall_mem_append_char (by decide) hne_i) (by decide)
  have h21 : searchL (tryKV ['i', 'o', 'p', 's']) ("IOPS=".toList ++ d ++ "M".toList) =
      none :=
    searchL_none _ _ (fun c hc r => tryKV_gate _ (hmem21 c hc) _)
  have hs2 : searchL (tryKV ['I', 'O', 'P', 'S']) ("IOPS=".toList ++ d ++ "M".toList) =
      some (d, some 'M') :=
    searchL_cons_some (tryKV_eval ['I', 'O', 'P', 'S'] d ['M'] hd hall (by decide))
  have p2 : Refactored.extract_iops ("IOPS=".toList ++ d ++ "M".toList) =
      .ok (some ((digitsToNat d : ℚ) * 1000000)) := by
    rw [ref_iops_eval2 _ d (some 'M') h21 hs2 hd hall]
    have hu : unitOf (some 'M') = "m" := rfl
    have hcv : convert_units ((digitsToNat d : ℕ) : ℚ) "m" false =
        (digitsToNat d : ℚ) * 1000 ^ 2 := rfl
    rw [hu, hcv]
    simp only [Except.ok.injEq, Option.some.injEq]
    norm_num
  have hmem31 : ∀ c ∈ "Iops=".toList ++ d, c ≠ 'i' :=
    forall_mem_append_char (by decide) hne_i
  have h31 : searchL (tryKV ['i', 'o', 'p', 's']) ("Iops=".toList ++ d) = none :=
    searchL_none _ _ (fun c hc r => tryKV_gate _ (hmem31 c hc) _)
  have h30 : tryKV ['I', 'O', 'P', 'S'] ('I' :: 'o' :: 'p' :: 's' :: '=' :: d) = none := by
    apply tryKV_none_of_key
    rw [dropLit_cons_eq rfl]
    exact dropLit_cons_ne (by decide) _ _
  have h32 : searchL (tryKV ['I', 'O', 'P', 'S']) ("Iops=".toList ++ d) = none := by
    show searchL (tryKV ['I', 'O', 'P', 'S']) ('I' :: 'o' :: 'p' :: 's' :: '=' :: d) = none
    rw [searchL_cons_none h30]
    have hmem32 : ∀ c ∈ ['o', 'p', 's', '='] ++ d, c ≠ 'I' :=
      forall_mem_append_char (by decide) hne_I
    exact searchL_none _ _ (fun c hc r => tryKV_gate _ (hmem32 c hc) _)
  have p3 : Refactored.extract_iops ("Iops=".toList ++ d) = .ok none :=
    ref_iops_none _ h31 h32
  have h40 : tryKV ['i', 'o', 'p', 's'] ('i' :: 'o' :: 'p' :: 's' :: '=' :: d2) =
      some (d2, none) := by
    have h := tryKV_eval ['i', 'o', 'p', 's'] d2 [] hd2 hall2 trivial
    rw [List.append_nil] at h
    exact h
  have hs4 : searchL (tryKV ['i', 'o', 'p', 's'])
      (("IOPS=".toList ++ d ++ " ".toList) ++ ("iops=".toList ++ d2)) =
      some (d2, none) := by
    have hmem4 : ∀ c ∈ "IOPS=".toList ++ d ++ " ".toList, c ≠ 'i' :=
      forall_mem_append_char (forall_mem_append_char (by decide) hne_i) (by decide)
    rw [searchL_append_none (tryKV ['i', 'o', 'p', 's'])
      ("IOPS=".toList ++ d ++ " ".toList) ("iops=".toList ++ d2)
      (fun c hc r => tryKV_gate _ (hmem4 c hc) _)]
    exact searchL_cons_some h40
  have p4 : Refactored.extract_iops
      (("IOPS=".toList ++ d ++ " ".toList) ++ ("iops=".toList ++ d2)) =
      .ok (some ((digitsToNat d2 : ℚ))) := by
    rw [ref_iops_eval1 _ d2 none hs4 hd2 hall2]
    rfl
  have p5 : Disk.extract_metric ("iops=".toList ++ d ++ "k".toList) "iops" =
      (digitsToNat d : ℚ) * 1000 := by
    rw [disk_iops_eval1 _ d (some 'k') hs1 hd hall, hu_k, hcv_k]
  exact ⟨p1, p2, p3, p4, p5⟩

/-- Claim C6 witness: the amended behaviour at the numeric tokens 3
and 7. -/
theorem c6_throughput_amended_witness :
    Refactored.extract_iops ("iops=".toList ++ ['3'] ++ "k".toList) =
      .ok (some ((digitsToNat ['3'] : ℚ) * 1000)) ∧
    Refactored.extract_iops ("IOPS=".toList ++ ['3'] ++ "M".toList) =
      .ok (some ((digitsToNat ['3'] : ℚ) * 1000000)) ∧
    Refactored.extract_iops ("Iops=".toList ++ ['3']) = .ok none ∧
    Refactored.extract_iops
      (("IOPS=".toList ++ ['3'] ++ " ".toList) ++ ("iops=".toList ++ ['7'])) =
      .ok (some ((digitsToNat ['7'] : ℚ))) ∧
    Disk.extract_metric ("iops=".toList ++ ['3'] ++ "k".toList) "iops" =
      (digitsToNat ['3'] : ℚ) * 1000 :=
  c6_throughput_amended ['3'] ['7'] (by decide) (by decide) (by decide) (by decide)

/-- Claim C10 counterexample: the `lat ... avg=` association does NOT
span lines.  On `lat\nx avg=3\nclat avg=7` the first `lat` (line 1) is
followed later in the text by `avg=3`, so the claim's reading extracts 3;
the code's `.*?` cannot cross the newline, so the match starts at the
`lat` inside `clat` on line 3 and extracts 7. -/
theorem c10_counterexample :
    Refactored.extract_latency ("lat\nx avg=3\nclat avg=7".toList) = .ok (some 7) ∧
    latency_claim_spec ("lat\nx avg=3\nclat avg=7".toList) = some 3 := by
  constructor
  · have hs : searchL tryLat ("lat\nx avg=3\nclat avg=7".toList) = some ['7'] := by decide
    rw [ref_lat_eval _ ['7'] hs (by decide) (by decide)]
    have h7 : digitsToNat ['7'] = 7 := by decide
    rw [h7]
    norm_num
  · have hs : searchL (fun u =>
        match dropLit ['l', 'a', 't'] u with
        | none => none
        | some v => lazyToAny tryAvgNum v) ("lat\nx avg=3\nclat avg=7".toList) =
        some ['3'] := by decide
    simp only [latency_claim_spec, hs, parseFloat_digits ['3'] (by decide) (by decide)]
    have h3 : digitsToNat ['3'] = 3 := by decide
    rw [h3]
    norm_num

/-- Claim C10 as amended (proved): latency extraction returns the number
after the first position, in scan order, where the substring `lat` is
followed ON THE SAME LINE (the lazy gap cannot cross a newline) by
`avg` and an equals sign, `lat` also matching inside labels such as
`slat`/`clat` — so the earliest latency section of the output wins, any
magnitude suffix after the number is ignored, and a text whose `lat` is
separated from its `avg=` by a newline yields the absent signal. -/
theorem c10_latency_amended (d d2 : List Char) (hd : d ≠ [])
    (hall : ∀ c ∈ d, c.isDigit = true) (hd2 : d2 ≠ [])
    (hall2 : ∀ c ∈ d2, c.isDigit = true) :
    Refactored.extract_latency ("slat: avg=".toList ++ d ++ "ms".toList) =
      .ok (some ((digitsToNat d : ℚ))) ∧
    Refactored.extract_latency (("slat: avg=".toList ++ d) ++ ("\nlat: avg=".toList ++ d2)) =
      .ok (some ((digitsToNat d : ℚ))) ∧
    Refactored.extract_latency ("lat\nx avg=".toList ++ d) = .ok none ∧
    Disk.extract_metric ("slat: avg=".toList ++ d ++ "ms".toList) "lat" =
      (digitsToNat d : ℚ) := by
  have slat_form : ∀ r : List Char, headFails isNumChar r →
      tryLat ('l' :: 'a' :: 't' :: ':' :: ' ' :: 'a' :: 'v' :: 'g' :: '=' :: (d ++ r)) =
        some d := by
    intro r hr
    have h1 : dropLit ['l', 'a', 't']
        ('l' :: 'a' :: 't' :: ':' :: ' ' :: 'a' :: 'v' :: 'g' :: '=' :: (d ++ r)) =
        some (':' :: ' ' :: 'a' :: 'v' :: 'g' :: '=' :: (d ++ r)) :=
      dropLit_self ['l', 'a', 't'] _
    simp only [tryLat, h1]
    rw [lazyTo_step (tryAvgNum_gate (by decide) _) (by decide),
      lazyTo_step (tryAvgNum_gate (by decide) _) (by decide),
      lazyTo_hit (tryAvgNum_eval d r hd hall hr)]
  have hs1 : searchL tryLat ("slat: avg=".toList ++ d ++ "ms".toList) = some d := by
    show searchL tryLat
      ('s' :: 'l' :: 'a' :: 't' :: ':' :: ' ' :: 'a' :: 'v' :: 'g' :: '=' :: (d ++ "ms".toList)) =
      some d
    rw [searchL_cons_none (tryLat_gate (by decide) _)]
    have hrms : headFails isNumChar "ms".toList := by
      show isNumChar 'm' = false
      decide
    exact searchL_cons_some (slat_form "ms".toList hrms)
  have p1 : Refactored.extract_latency ("slat: avg=".toList ++ d ++ "ms".toList) =
      .ok (some ((digitsToNat d : ℚ))) := by
    rw [ref_lat_eval _ d hs1 hd hall]
  have hr2 : headFails isNumChar ("\nlat: avg=".toList ++ d2) := by
    show isNumChar '\n' = false
    decide
  have hs2 : searchL tryLat (("slat: avg=".toList ++ d) ++ ("\nlat: avg=".toList ++ d2)) =
      some d := by
    show searchL tryLat
      ('s' :: 'l' :: 'a' :: 't' :: ':' :: ' ' :: 'a' :: 'v' :: 'g' :: '=' ::
        (d ++ ("\nlat: avg=".toList ++ d2))) = some d
    rw [searchL_cons_none (tryLat_gate (by decide) _)]
    exact searchL_cons_some (slat_form ("\nlat: avg=".toList ++ d2) hr2)
  have p2 : Refactored.extract_latency
      (("slat: avg=".toList ++ d) ++ ("\nlat: avg=".toList ++ d2)) =
      .ok (some ((digitsToNat d : ℚ))) := by
    rw [ref_lat_eval _ d hs2 hd hall]
  have h30 : tryLat ('l' :: 'a' :: 't' :: '\n' :: 'x' :: ' ' :: 'a' :: 'v' :: 'g' :: '=' :: d) =
      none := by
    have h1 : dropLit ['l', 'a', 't']
        ('l' :: 'a' :: 't' :: '\n' :: 'x' :: ' ' :: 'a' :: 'v' :: 'g' :: '=' :: d) =
        some ('\n' :: 'x' :: ' ' :: 'a' :: 'v' :: 'g' :: '=' :: d) :=
      dropLit_self ['l', 'a', 't'] _
    simp only [tryLat, h1]
    exact lazyTo_nl (tryAvgNum_gate (by decide) _)
  have hs3 : searchL tryLat ("lat\nx avg=".toList ++ d) = none := by
    show searchL tryLat
      ('l' :: 'a' :: 't' :: '\n' :: 'x' :: ' ' :: 'a' :: 'v' :: 'g' :: '=' :: d) = none
    rw [searchL_cons_none h30]
    have hmem : ∀ c ∈ ['a', 't', '\n', 'x', ' ', 'a', 'v', 'g', '='] ++ d, c ≠ 'l' :=
      forall_mem_append_char (by decide)
        (fun c hc => ne_of_digit (hall c hc) (by decide))
    exact searchL_none _ _ (fun c hc r => tryLat_gate (hmem c hc) _)
  have p3 : Refactored.extract_latency ("lat\nx avg=".toList ++ d) = .ok none :=
    ref_lat_none _ hs3
  have p4 : Disk.extract_metric ("slat: avg=".toList ++ d ++ "ms".toList) "lat" =
      (digitsToNat d : ℚ) := by
    rw [disk_lat_eval _ d hs1 hd hall]
  exact ⟨p1, p2, p3, p4⟩

/-- Claim C10 witness: the amended behaviour at the numeric tokens 42
and 7. -/
theorem c10_latency_amended_witness :
    Refactored.extract_latency ("slat: avg=".toList ++ ['4', '2'] ++ "ms".toList) =
      .ok (some ((digitsToNat ['4', '2'] : ℚ))) ∧
    Refactored.extract_latency
      (("slat: avg=".toList ++ ['4', '2']) ++ ("\nlat: avg=".toList ++ ['7'])) =
      .ok (some ((digitsToNat ['4', '2'] : ℚ))) ∧
    Refactored.extract_latency ("lat\nx avg=".toList ++ ['4', '2']) = .ok none ∧
    Disk.extract_metric ("slat: avg=".toList ++ ['4', '2'] ++ "ms".toList) "lat" =
      (digitsToNat ['4', '2'] : ℚ) :=
  c10_latency_amended ['4', '2'] ['7'] (by decide) (by decide) (by decide) (by decide)

/-- Claim C5 counterexample: in the refactored extractor a malformed
numeric token inside a matched `iops` token aborts the whole
`extract_metrics` call (no metric is produced, although latency and
bandwidth are present in the same text), and in the fs variant a text
with no match yields the numeric 0, not a distinct absent signal. -/
theorem c5_counterexample :
    Refactored.extract_metrics ("iops=1.2.3 lat: avg=5 bw=4KiB/s".toList) = .error () ∧
    FS.extract_metric ("no metrics here".toList) "iops" = some 0 := by
  constructor
  · exact ref_metrics_err _
      (ref_iops_err _ ['1', '.', '2', '.', '3'] none (by decide) (by decide))
  · exact fs_iops_none _ (by decide) (by decide)

/-- Claim C5 as amended (proved): when no pattern matches, the refactored
extractor returns the distinct absent signal `None` and the fs/disk
variants return the numeric sentinel 0 — never an exception; when a
pattern matches but the numeric token is malformed, the fs/disk variants
catch the error per metric (that metric becomes 0, the other two are
unaffected), while the refactored `extract_metrics` propagates the error
and loses all three metrics of that text. -/
theorem c5_error_isolation_amended :
    (∀ s : List Char,
      searchL (tryKV ['i', 'o', 'p', 's']) s = none →
      searchL (tryKV ['I', 'O', 'P', 'S']) s = none →
      Refactored.extract_iops s = .ok none ∧
      FS.extract_metric s "iops" = some 0 ∧
      Disk.extract_metric s "iops" = 0) ∧
    (∀ (s tok : List Char) (suf : Option Char),
      searchL (tryKV ['i', 'o', 'p', 's']) s = some (tok, suf) →
      parseFloat tok = none →
      Refactored.extract_metrics s = .error () ∧
      FS.extract_metric s "iops" = some 0 ∧
      Disk.extract_metric s "iops" = 0) ∧
    (FS.extract_metric ("iops=1.2.3 lat: avg=5 bw=4KiB/s".toList) "iops" = some 0 ∧
      FS.extract_metric ("iops=1.2.3 lat: avg=5 bw=4KiB/s".toList) "lat" = some 5 ∧
      FS.extract_metric ("iops=1.2.3 lat: avg=5 bw=4KiB/s".toList) "bw" = some 4096) := by
  refine ⟨?_, ?_, ?_, ?_, ?_⟩
  · intro s h1 h2
    exact ⟨ref_iops_none s h1 h2, fs_iops_none s h1 h2, disk_iops_none s h1 h2⟩
  · intro s tok suf hs hp
    exact ⟨ref_metrics_err s (ref_iops_err s tok suf hs hp),
      fs_iops_badnum s tok suf hs hp, disk_iops_badnum s tok suf hs hp⟩
  · exact fs_iops_badnum _ ['1', '.', '2', '.', '3'] none (by decide) (by decide)
  · have hs : searchL tryLat ("iops=1.2.3 lat: avg=5 bw=4KiB/s".toList) = some ['5'] := by
      decide
    rw [fs_lat_eval _ ['5'] hs (by decide) (by decide)]
    have h5 : digitsToNat ['5'] = 5 := by decide
    rw [h5]
    norm_num
  · have hs : searchL (tryBwTail ['i', 'B', '/', 's'])
        ("iops=1.2.3 lat: avg=5 bw=4KiB/s".toList) = some (['4'], some 'K') := by decide
    rw [fs_bw_eval1 _ ['4'] (some 'K') hs (by decide) (by decide)]
    have h4 : digitsToNat ['4'] = 4 := by decide
    have hu : unitOf (some 'K') = "k" := rfl
    have hcv : ∀ v : ℚ, convert_units v "k" true = v * 1024 := fun v => rfl
    rw [h4, hu, hcv]
    norm_num

/-- Claim C5 witness: the two universal parts applied at concrete
texts. -/
theorem c5_error_isolation_amended_witness :
    (Refactored.extract_iops ("xyz".toList) = .ok none ∧
      FS.extract_metric ("xyz".toList) "iops" = some 0 ∧
      Disk.extract_metric ("xyz".toList) "iops" = 0) ∧
    (Refactored.extract_metrics ("iops=..".toList) = .error () ∧
      FS.extract_metric ("iops=..".toList) "iops" = some 0 ∧
      Disk.extract_metric ("iops=..".toList) "iops" = 0) := by
  constructor
  · exact c5_error_isolation_amended.1 _ (by decide) (by decide)
  · exact c5_error_isolation_amended.2.1 _ ['.', '.'] none (by decide) (by decide)

/-- Claim C1 counterexample: the byte form `bw=<n>KB/s` in
disk_stress_test.py is resolved with a DECIMAL base (1000), not the
binary 1024 the claim states — `bw=2KB/s` yields 2*1000/1024 = 125/64,
not 2; and the refactored extractor neither divides by 1024 (it returns
2048 bytes/s for `bw=2KiB/s`, not 2) nor has any case-insensitive
fallback spellings (`BW=2KiB/s` yields the absent signal). -/
theorem c1_counterexample :
    Disk.extract_metric ("bw=2KB/s".toList) "bw" = 125 / 64 ∧
    (125 / 64 : ℚ) ≠ 2 ∧
    Refactored.extract_bandwidth ("bw=2KiB/s".toList) = .ok (some 2048) ∧
    Refactored.extract_bandwidth ("BW=2KiB/s".toList) = .ok none := by
  refine ⟨?_, by norm_num, ?_, ?_⟩
  · have h1 : searchL (tryBwTail ['i', 'B', '/', 's']) ("bw=2KB/s".toList) = none := by
      decide
    have hs : searchL (tryBwTail ['B', '/', 's']) ("bw=2KB/s".toList) =
        some (['2'], some 'K') := by decide
    rw [disk_bw_eval2 _ ['2'] (some 'K') h1 hs (by decide) (by decide)]
    have h2 : digitsToNat ['2'] = 2 := by decide
    have hu : unitOf (some 'K') = "k" := rfl
    rw [h2, hu]
    have hcv : convert_units ((2 : ℕ) : ℚ) "k" false = ((2 : ℕ) : ℚ) * 1000 := rfl
    rw [hcv]
    norm_num
  · have hs : searchL (tryBwTail ['i', 'B', '/', 's']) ("bw=2KiB/s".toList) =
        some (['2'], some 'K') := by decide
    rw [ref_bw_eval1 _ ['2'] (some 'K') hs (by decide) (by decide)]
    have h2 : digitsToNat ['2'] = 2 := by decide
    have hu : unitOf (some 'K') = "k" := rfl
    rw [h2, hu]
    have hcv : convert_units ((2 : ℕ) : ℚ) "k" true = ((2 : ℕ) : ℚ) * 1024 := rfl
    rw [hcv]
    simp only [Except.ok.injEq, Option.some.injEq]
    norm_num
  · have h1 : searchL (tryBwTail ['i', 'B', '/', 's']) ("BW=2KiB/s".toList) = none := by
      decide
    have h2 : searchL (tryBwTail ['B', '/', 's']) ("BW=2KiB/s".toList) = none := by decide
    exact ref_bw_none _ h1 h2

/-- Claim C1 as amended (proved): disk_stress_test.py tries the binary
form `bw=<n><u>iB/s` first (binary base, divided by 1024, so `KiB/s`
yields the number itself in KB/s), then the byte form `bw=<n><u>B/s`
with a DECIMAL base (1000) still divided by 1024, then the
case-insensitive fallback spellings (`BW=`, binary base, divided by
1024); the refactored extractor (and fs_stress_test.py) tries only the
two case-sensitive forms, resolves BOTH with binary bases, never divides
by 1024, and has no fallbacks (`BW=` yields the absent signal); the
binary form is preferred over a byte form appearing earlier in the
text. -/
theorem c1_bandwidth_amended (d d2 : List Char) (hd : d ≠ [])
    (hall : ∀ c ∈ d, c.isDigit = true) (hd2 : d2 ≠ [])
    (hall2 : ∀ c ∈ d2, c.isDigit = true) :
    Disk.extract_metric ("bw=".toList ++ d ++ "KiB/s".toList) "bw" =
      (digitsToNat d : ℚ) ∧
    Disk.extract_metric ("bw=".toList ++ d ++ "KB/s".toList) "bw" =
      (digitsToNat d : ℚ) * 1000 / 1024 ∧
    Disk.extract_metric ("BW=".toList ++ d ++ "KiB/s".toList) "bw" =
      (digitsToNat d : ℚ) ∧
    Refactored.extract_bandwidth ("bw=".toList ++ d ++ "KiB/s".toList) =
      .ok (some ((digitsToNat d : ℚ) * 1024)) ∧
    Refactored.extract_bandwidth ("bw=".toList ++ d ++ "KB/s".toList) =
      .ok (some ((digitsToNat d : ℚ) * 1024)) ∧
    Refactored.extract_bandwidth ("BW=".toList ++ d ++ "KiB/s".toList) = .ok none ∧
    Refactored.extract_bandwidth
      ("bw=".toList ++ d ++ "KB/s ".toList ++ "bw=".toList ++ d2 ++ "KiB/s".toList) =
      .ok (some ((digitsToNat d2 : ℚ) * 1024)) ∧
    FS.extract_metric ("bw=".toList ++ d ++ "KB/s".toList) "bw" =
      some ((digitsToNat d : ℚ) * 1024) := by
  have hne_b : ∀ c ∈ d, c ≠ 'b' := fun c hc => ne_of_digit (hall c hc) (by decide)
  have hu : unitOf (some 'K') = "k" := rfl
  have hcvT : ∀ v : ℚ, convert_units v "k" true = v * 1024 := fun v => rfl
  have hcvF : ∀ v : ℚ, convert_units v "k" false = v * 1000 := fun v => rfl
  have hs1 : searchL (tryBwTail ['i', 'B', '/', 's'])
      ("bw=".toList ++ d ++ "KiB/s".toList) = some (d, some 'K') :=
    searchL_cons_some
      (tryBwTail_eval_suf ['i', 'B', '/', 's'] d [] 'K' hd hall (by decide) (by decide))
  have hfail0 : tryBwTail ['i', 'B', '/', 's']
      ('b' :: 'w' :: '=' :: (d ++ 'K' :: 'B' :: '/' :: 's' :: [])) = none :=
    tryBwTail_noMatch_suf ['i', 'B', '/', 's'] d ['B', '/', 's'] 'K' hd hall
      (by decide) (by decide) (dropLit_cons_ne (by decide) _ _)
      (dropLit_cons_ne (by decide) _ _)
  have h1b : searchL (tryBwTail ['i', 'B', '/', 's'])
      ("bw=".toList ++ d ++ "KB/s".toList) = none := by
    show searchL (tryBwTail ['i', 'B', '/', 's'])
      ('b' :: 'w' :: '=' :: (d ++ 'K' :: 'B' :: '/' :: 's' :: [])) = none
    rw [searchL_cons_none hfail0]
    have hmem : ∀ c ∈ ['w', '='] ++ (d ++ ['K', 'B', '/', 's']), c ≠ 'b' :=
      forall_mem_append_char (by decide) (forall_mem_append_char hne_b (by decide))
    exact searchL_none _ _ (fun c hc r => tryBwTail_gate _ (hmem c hc) _)
  have hs2 : searchL (tryBwTail ['B', '/', 's'])
      ("bw=".toList ++ d ++ "KB/s".toList) = some (d, some 'K') :=
    searchL_cons_some
      (tryBwTail_eval_suf ['B', '/', 's'] d [] 'K' hd hall (by decide) (by decide))
  have hmemBW : ∀ c ∈ "BW=".toList ++ d ++ "KiB/s".toList, c ≠ 'b' :=
    forall_mem_append_char (forall_mem_append_char (by decide) hne_b) (by decide)
  have h1c : searchL (tryBwTail ['i', 'B', '/', 's'])
      ("BW=".toList ++ d ++ "KiB/s".toList) = none :=
    searchL_none _ _ (fun c hc r => tryBwTail_gate _ (hmemBW c hc) _)
  have h2c : searchL (tryBwTail ['B', '/', 's'])
      ("BW=".toList ++ d ++ "KiB/s".toList) = none :=
    searchL_none _ _ (fun c hc r => tryBwTail_gate _ (hmemBW c hc) _)
  have hsc : searchL (tryEqBwCI ['B', 'W', '='] ['i', 'B', '/', 's'])
      ("BW=".toList ++ d ++ "KiB/s".toList) = some (d, some 'K') :=
    searchL_cons_some
      (tryEqBwCI_eval_suf ['B', 'W', '='] ['i', 'B', '/', 's'] d [] 'K' hd hall
        (by decide) (by decide))
  have hs7 : searchL (tryBwTail ['i', 'B', '/', 's'])
      ("bw=".toList ++ d ++ "KB/s ".toList ++ "bw=".toList ++ d2 ++ "KiB/s".toList) =
      some (d2, some 'K') := by
    simp only [List.append_assoc]
    show searchL (tryBwTail ['i', 'B', '/', 's'])
      ('b' :: 'w' :: '=' :: (d ++ 'K' :: 'B' :: '/' :: 's' :: ' ' ::
        ('b' :: 'w' :: '=' :: (d2 ++ "KiB/s".toList)))) = some (d2, some 'K')
    have hfail7 : tryBwTail ['i', 'B', '/', 's']
        ('b' :: 'w' :: '=' :: (d ++ 'K' :: 'B' :: '/' :: 's' :: ' ' ::
          ('b' :: 'w' :: '=' :: (d2 ++ "KiB/s".toList)))) = none :=
      tryBwTail_noMatch_suf ['i', 'B', '/', 's'] d
        ('B' :: '/' :: 's' :: ' ' :: ('b' :: 'w' :: '=' :: (d2 ++ "KiB/s".toList))) 'K'
        hd hall (by decide) (by decide) (dropLit_cons_ne (by decide) _ _)
        (dropLit_cons_ne (by decide) _ _)
    rw [searchL_cons_none hfail7]
    rw [searchL_cons_none (tryBwTail_gate _ (by decide) _)]
    rw [searchL_cons_none (tryBwTail_gate _ (by decide) _)]
    rw [searchL_append_none _ d _ (fun c hc r => tryBwTail_gate _ (hne_b c hc) _)]
    rw [searchL_cons_none (tryBwTail_gate _ (by decide) _)]
    rw [searchL_cons_none (tryBwTail_gate _ (by decide) _)]
    rw [searchL_cons_none (tryBwTail_gate _ (by decide) _)]
    rw [searchL_cons_none (tryBwTail_gate _ (by decide) _)]
    rw [searchL_cons_none (tryBwTail_gate _ (by decide) _)]
    exact searchL_cons_some
      (tryBwTail_eval_suf ['i', 'B', '/', 's'] d2 [] 'K' hd2 hall2 (by decide) (by decide))
  have p1 : Disk.extract_metric ("bw=".toList ++ d ++ "KiB/s".toList) "bw" =
      (digitsToNat d : ℚ) := by
    rw [disk_bw_eval1 _ d (some 'K') hs1 hd hall, hu, hcvT]
    exact mul_div_cancel_right₀ _ (by norm_num)
  have p2 : Disk.extract_metric ("bw=".toList ++ d ++ "KB/s".toList) "bw" =
      (digitsToNat d : ℚ) * 1000 / 1024 := by
    rw [disk_bw_eval2 _ d (some 'K') h1b hs2 hd hall, hu, hcvF]
  have p3 : Disk.extract_metric ("BW=".toList ++ d ++ "KiB/s".toList) "bw" =
      (digitsToNat d : ℚ) := by
    rw [disk_bw_fb1 _ d (some 'K') h1c h2c hsc hd hall, hu]
    have hbm : binMult "k" = 1024 := rfl
    rw [hbm]
    exact mul_div_cancel_right₀ _ (by norm_num)
  have p4 : Refactored.extract_bandwidth ("bw=".toList ++ d ++ "KiB/s".toList) =
      .ok (some ((digitsToNat d : ℚ) * 1024)) := by
    rw [ref_bw_eval1 _ d (some 'K') hs1 hd hall, hu, hcvT]
  have p5 : Refactored.extract_bandwidth ("bw=".toList ++ d ++ "KB/s".toList) =
      .ok (some ((digitsToNat d : ℚ) * 1024)) := by
    rw [ref_bw_eval2 _ d (some 'K') h1b hs2 hd hall, hu, hcvT]
  have p6 : Refactored.extract_bandwidth ("BW=".toList ++ d ++ "KiB/s".toList) =
      .ok none := ref_bw_none _ h1c h2c
  have p7 : Refactored.extract_bandwidth
      ("bw=".toList ++ d ++ "KB/s ".toList ++ "bw=".toList ++ d2 ++ "KiB/s".toList) =
      .ok (some ((digitsToNat d2 : ℚ) * 1024)) := by
    rw [ref_bw_eval1 _ d2 (some 'K') hs7 hd2 hall2, hu, hcvT]
  have p8 : FS.extract_metric ("bw=".toList ++ d ++ "KB/s".toList) "bw" =
      some ((digitsToNat d : ℚ) * 1024) := by
    rw [fs_bw_eval2 _ d (some 'K') h1b hs2 hd hall, hu, hcvT]
  exact ⟨p1, p2, p3, p4, p5, p6, p7, p8⟩

/-- Claim C1 witness: the amended behaviour at the numeric tokens 2
and 3. -/
theorem c1_bandwidth_amended_witness :
    Disk.extract_metric ("bw=".toList ++ ['2'] ++ "KiB/s".toList) "bw" =
      (digitsToNat ['2'] : ℚ) ∧
    Disk.extract_metric ("bw=".toList ++ ['2'] ++ "KB/s".toList) "bw" =
      (digitsToNat ['2'] : ℚ) * 1000 / 1024 ∧
    Disk.extract_metric ("BW=".toList ++ ['2'] ++ "KiB/s".toList) "bw" =
      (digitsToNat ['2'] : ℚ) ∧
    Refactored.extract_bandwidth ("bw=".toList ++ ['2'] ++ "KiB/s".toList) =
      .ok (some ((digitsToNat ['2'] : ℚ) * 1024)) ∧
    Refactored.extract_bandwidth ("bw=".toList ++ ['2'] ++ "KB/s".toList) =
      .ok (some ((digitsToNat ['2'] : ℚ) * 1024)) ∧
    Refactored.extract_bandwidth ("BW=".toList ++ ['2'] ++ "KiB/s".toList) = .ok none ∧
    Refactored.extract_bandwidth
      ("bw=".toList ++ ['2'] ++ "KB/s ".toList ++ "bw=".toList ++ ['3'] ++ "KiB/s".toList) =
      .ok (some ((digitsToNat ['3'] : ℚ) * 1024)) ∧
    FS.extract_metric ("bw=".toList ++ ['2'] ++ "KB/s".toList) "bw" =
      some ((digitsToNat ['2'] : ℚ) * 1024) :=
  c1_bandwidth_amended ['2'] ['3'] (by decide) (by decide) (by decide) (by decide)
